import Mathlib

/-!
# The 4D player: point cloud, mesh filter and playback pacing

A shallow embedding of `src/libs/3dvideo/src/player.cpp` (class `Player::PlayerImpl`),
together with `CameraParams` from `util/camera.hpp` and `Triangle3D` from `4d/mesh_frame.hpp`.

Modelling conventions.

* A finite `float` or `double` value is the rational number (`ℚ`) it stands for. Every
  floating point operation of the source is the exact operation followed by rounding to the
  nearest value of its format, ties to even (`roundF32` for `float`, `roundF64` for `double`),
  with gradual underflow. Infinities and NaN are outside the model: a result beyond the
  largest finite value stays the large rational, which compares with the thresholds as the
  infinity does.
* `cv::norm` of a `cv::Point3f` is, as in OpenCV, the square root of the sum of the three
  squares computed in `double` (`cvNorm`); `std::sqrt` is correctly rounded (`sqrtF64`).
* `int`, `short` and `int64_t` values are integers (`Int`), `uint16_t` depth values and container
  sizes are naturals. A conversion of a `float` to `short` truncates toward zero and wraps to
  sixteen bits.
* `std::vector` is `List`; an access outside the vector is undefined behaviour in the source and
  makes the embedded function return `none`.
* `std::chrono::system_clock` readings are integers (microseconds) supplied by the caller.
* Functions that the source calls but that are declared elsewhere (`project2dPointTo3d`,
  `Delaunay`, `triNormal`, `meanPoint`) are fields of `Externals`.
-/

namespace Player

/-! ## Floating point arithmetic -/

/-- The power `2 ^ k` for an integer exponent. -/
def pow2 (k : Int) : ℚ :=
  if 0 ≤ k then ((2 ^ k.toNat : Nat) : ℚ) else 1 / ((2 ^ (-k).toNat : Nat) : ℚ)

/-- Binary logarithm of a natural number, rounded down, by halving at most `f` times. -/
def log2Fuel : Nat → Nat → Nat
  | 0, _ => 0
  | f + 1, n => if n < 2 then 0 else log2Fuel f (n / 2) + 1

/-- Binary logarithm of a natural number, rounded down. -/
def natLog2 (n : Nat) : Nat := log2Fuel n n

/-- The binary exponent of a non-zero rational `x`: the `e` with `2 ^ e ≤ |x| < 2 ^ (e + 1)`. -/
def floorLog2 (x : ℚ) : Int :=
  let a : Int := (natLog2 x.num.natAbs : Int) - (natLog2 x.den : Int)
  if pow2 a ≤ |x| then a else a - 1

/-- Rounding to the nearest integer, a tie going to the even one. -/
def roundNE (y : ℚ) : Int :=
  if y - (⌊y⌋ : ℚ) < 1 / 2 then ⌊y⌋
  else if 1 / 2 < y - (⌊y⌋ : ℚ) then ⌊y⌋ + 1
  else if ⌊y⌋ % 2 = 0 then ⌊y⌋ else ⌊y⌋ + 1

/-- Rounding to the nearest value of a binary format with `prec + 1` significant bits and
smallest normal exponent `emin`, ties to even: the nearest multiple of
`2 ^ (max e emin - prec)`, where `e` is the binary exponent of `x`. -/
def roundBin (prec : Nat) (emin : Int) (x : ℚ) : ℚ :=
  if x = 0 then 0
  else (roundNE (x / pow2 (max (floorLog2 x) emin - (prec : Int))) : ℚ)
        * pow2 (max (floorLog2 x) emin - (prec : Int))

/-- Rounding to `float` (IEEE 754 binary32). -/
def roundF32 (x : ℚ) : ℚ := roundBin 23 (-126) x

/-- Rounding to `double` (IEEE 754 binary64). -/
def roundF64 (x : ℚ) : ℚ := roundBin 52 (-1022) x

/-- Bit by bit search for the integer square root: bits `k - 1` down to `0` are tried on top
of `r`. -/
def isqrtAux (n : Nat) : Nat → Nat → Nat
  | 0, r => r
  | k + 1, r => isqrtAux n k (if (r + 2 ^ k) * (r + 2 ^ k) ≤ n then r + 2 ^ k else r)

/-- Integer square root, rounded down. -/
def isqrt (n : Nat) : Nat := isqrtAux n (natLog2 n / 2 + 1) 0

/-- The square root of a non-negative rational rounded to the nearest integer, a tie going to
the even one. -/
def sqrtNE (y : ℚ) : Int :=
  if 4 * y < ((2 * (isqrt ⌊y⌋.toNat : ℚ) + 1)) ^ 2 then (isqrt ⌊y⌋.toNat : Int)
  else if ((2 * (isqrt ⌊y⌋.toNat : ℚ) + 1)) ^ 2 < 4 * y then (isqrt ⌊y⌋.toNat : Int) + 1
  else if isqrt ⌊y⌋.toNat % 2 = 0 then (isqrt ⌊y⌋.toNat : Int) else (isqrt ⌊y⌋.toNat : Int) + 1

/-- The function `std::sqrt` on `double`: the square root rounded to 53 significant bits. -/
def sqrtF64 (x : ℚ) : ℚ :=
  if x ≤ 0 then 0
  else (sqrtNE (x / (pow2 (floorLog2 x / 2 - 52) * pow2 (floorLog2 x / 2 - 52))) : ℚ)
        * pow2 (floorLog2 x / 2 - 52)

/-- Subtraction of two `float` values. -/
def f32sub (a b : ℚ) : ℚ := roundF32 (a - b)

/-- Product of two `float` values. -/
def f32mul (a b : ℚ) : ℚ := roundF32 (a * b)

/-- Quotient of two `float` values. -/
def f32div (a b : ℚ) : ℚ := roundF32 (a / b)

/-- Conversion of an `int` to `float`. -/
def f32ofInt (n : Int) : ℚ := roundF32 (n : ℚ)

/-! ## Geometry -/

/-- The OpenCV type `cv::Point3f`. -/
structure Point3f where
  x : ℚ
  y : ℚ
  z : ℚ
deriving DecidableEq

/-- Component-wise difference of `float` coordinates, `operator-` of `cv::Point3f`. -/
def Point3f.sub (p q : Point3f) : Point3f :=
  ⟨f32sub p.x q.x, f32sub p.y q.y, f32sub p.z q.z⟩

instance : Sub Point3f := ⟨Point3f.sub⟩

/-- The OpenCV function `cv::norm` on a `cv::Point3f`, with result type `double`:
`std::sqrt((double)pt.x*pt.x + (double)pt.y*pt.y + (double)pt.z*pt.z)`. -/
def cvNorm (v : Point3f) : ℚ :=
  sqrtF64 (roundF64 (roundF64 (roundF64 (v.x * v.x) + roundF64 (v.y * v.y))
    + roundF64 (v.z * v.z)))

/-- The struct `Triangle3D` of `mesh_frame.hpp` and `player.cpp`. -/
structure Triangle3D where
  p1 : Point3f
  p2 : Point3f
  p3 : Point3f
deriving DecidableEq

/-- Edge `a() = p2 - p1`. -/
def Triangle3D.a (t : Triangle3D) : Point3f := t.p2 - t.p1

/-- Edge `b() = p3 - p2`. -/
def Triangle3D.b (t : Triangle3D) : Point3f := t.p3 - t.p2

/-- Edge `c() = p1 - p3`. -/
def Triangle3D.c (t : Triangle3D) : Point3f := t.p1 - t.p3

/-- An index triangle of the triangulator (`Triangle`, fields `p1`, `p2`, `p3`). -/
structure Triangle where
  p1 : Int
  p2 : Int
  p3 : Int
deriving DecidableEq

/-- A pixel coordinate `PointIJ`, two `short` fields. -/
structure PointIJ where
  i : Int
  j : Int
deriving DecidableEq

/-! ## Machine conversions -/

/-- Conversion of a `float` to an integer type: truncation toward zero. -/
def truncToInt (x : ℚ) : Int :=
  if 0 ≤ x then ⌊x⌋ else ⌈x⌉

/-- Two's complement wrap to sixteen bits. -/
def wrapShort (n : Int) : Int :=
  (n + 32768) % 65536 - 32768

/-- The cast `short(x)` of a `float`. -/
def toShort (x : ℚ) : Int :=
  wrapShort (truncToInt x)

/-- The constant `std::numeric_limits<short>::max()`. -/
def shortMax : Nat := 32767

/-- The constant `std::numeric_limits<int>::max()`. -/
def intMax : Int := 2147483647

/-! ## Camera (`util/camera.hpp`) -/

/-- The class `CameraParams`. -/
structure CameraParams where
  f : ℚ
  cx : ℚ
  cy : ℚ
  w : Int
  h : Int
deriving DecidableEq

/-- The method `CameraParams::scale`. -/
def CameraParams.scale (cam : CameraParams) (c : ℚ) : CameraParams :=
  { f := f32mul cam.f c, cx := f32mul cam.cx c, cy := f32mul cam.cy c,
    w := truncToInt (f32mul (f32ofInt cam.w) c), h := truncToInt (f32mul (f32ofInt cam.h) c) }

/-- The constant `targetW`. -/
def targetW : Int := 640

/-! ## Frames and external collaborators -/

/-- A depth image (`cv::Mat` of `uint16_t`): `atU16 i j` is `depth.at<uint16_t>(i, j)`. -/
structure Mat where
  rows : Nat
  cols : Nat
  atU16 : Nat → Nat → Nat

/-- A source frame: the fields of `Frame` that the player reads. -/
structure Frame where
  frameNumber : Int
  dTimestamp : Int
  depth : Mat

/-- Functions called by the player and declared outside of it. `delaunay pts` stands for the
calls `delaunay(points, indexMap)`, `generateTriangles()` and `getTriangles(...)` and gives
the index triangles and the filled `indexMap`. -/
structure Externals where
  project2dPointTo3d : Int → Int → Nat → CameraParams → Point3f
  delaunay : List PointIJ → List Triangle × List Int
  triNormal : Point3f → Point3f → Point3f → Point3f
  meanPoint : List Point3f → Point3f

/-! ## Player state -/

/-- The data members of `Player::PlayerImpl` that the playback core touches, and the
function-local `static bool once` of `canPlayCurrentFrame`. -/
structure PlayerImpl where
  meanPointCalculated : Bool
  modelCenter : Point3f
  lastPlayedFrame : Int
  firstFrameTimestamp : Int
  playbackStarted : Int
  currentFrame : Option Frame
  frameToDraw : Option Frame
  points : List PointIJ
  cloud : List Point3f
  triangles3D : List Triangle3D
  pointNormals : List Triangle3D
  triangles : List Triangle
  num3DTriangles : Nat
  depthCam : CameraParams
  scale : ℚ
  once : Bool

/-- The zero point, the value of a default-constructed `cv::Point3f`. -/
def zeroPoint : Point3f := ⟨0, 0, 0⟩

/-- A default-constructed `Triangle3D`. -/
def zeroTriangle : Triangle3D := ⟨zeroPoint, zeroPoint, zeroPoint⟩

/-- The state after construction and `init()`: member initialisers of the class, buffers of
`maxNumTriangles` default triangles, and the camera of the sensor rescaled to `targetW`. -/
def PlayerImpl.init (maxNumTriangles : Nat) (sensorCam : CameraParams) : PlayerImpl :=
  let scale : ℚ := f32div (f32ofInt targetW) (f32ofInt sensorCam.w)
  { meanPointCalculated := false
    modelCenter := zeroPoint
    lastPlayedFrame := intMax
    firstFrameTimestamp := 0
    playbackStarted := 0
    currentFrame := none
    frameToDraw := none
    points := []
    cloud := []
    triangles3D := List.replicate maxNumTriangles zeroTriangle
    pointNormals := List.replicate maxNumTriangles zeroTriangle
    triangles := []
    num3DTriangles := 0
    depthCam := sensorCam.scale scale
    scale := scale
    once := false }

/-! ## Point cloud (first loop of `setupNewFrame`) -/

/-- The constant `minDepth`. -/
def minDepth : Nat := 200

/-- The constant `maxDepth`. -/
def maxDepth : Nat := 6000

/-- The vectors `points` and `cloud` while they are filled. -/
structure CloudAcc where
  points : List PointIJ
  cloud : List Point3f

/-- Body of the inner loop over the columns `j` of row `i`. -/
def cloudInner (project : Int → Int → Nat → CameraParams → Point3f) (cam : CameraParams)
    (scale : ℚ) (depth : Mat) (i : Nat) (scaleI : Int) (acc : CloudAcc) (j : Nat) : CloudAcc :=
  let d := depth.atU16 i j
  if d > minDepth ∧ d < maxDepth ∧ acc.points.length < shortMax then
    let scaleJ := toShort (f32mul scale (f32ofInt (j : Int)))
    { points := acc.points ++ [⟨scaleI, scaleJ⟩]
      cloud := acc.cloud ++ [project scaleI scaleJ d cam] }
  else acc

/-- Body of the outer loop over the rows `i`. -/
def cloudRow (project : Int → Int → Nat → CameraParams → Point3f) (cam : CameraParams)
    (scale : ℚ) (depth : Mat) (acc : CloudAcc) (i : Nat) : CloudAcc :=
  let scaleI := toShort (f32mul scale (f32ofInt (i : Int)))
  (List.range depth.cols).foldl (cloudInner project cam scale depth i scaleI) acc

/-- The loops of lines 216 to 233: `points` and `cloud` are cleared and refilled. -/
def buildCloud (project : Int → Int → Nat → CameraParams → Point3f) (cam : CameraParams)
    (scale : ℚ) (depth : Mat) : CloudAcc :=
  (List.range depth.rows).foldl (cloudRow project cam scale depth) ⟨[], []⟩

/-! ## Mesh filter (second loop of `setupNewFrame`) -/

/-- The constant `sideLengthThreshold`, in meters: the `float` literal `0.15f`. -/
def sideLengthThreshold : ℚ := 5033165 / 33554432

/-- The constant `zThreshold`: the `float` literal `0.1f`. -/
def zThreshold : ℚ := 13421773 / 134217728

/-- Access `v[k]` of a vector with a signed index; `none` outside of the vector. -/
def vecAt {α : Type} (v : List α) (k : Int) : Option α :=
  if 0 ≤ k then v[k.toNat]? else none

/-- The vertex `cloud[indexMap[k]]`. -/
def vertexAt (indexMap : List Int) (cloud : List Point3f) (k : Int) : Option Point3f :=
  (vecAt indexMap k).bind (vecAt cloud)

/-- The three assignments to `t3d.p1`, `t3d.p2`, `t3d.p3`. -/
def resolve (indexMap : List Int) (cloud : List Point3f) (t : Triangle) : Option Triangle3D :=
  match vertexAt indexMap cloud t.p1, vertexAt indexMap cloud t.p2,
      vertexAt indexMap cloud t.p3 with
  | some q1, some q2, some q3 => some ⟨q1, q2, q3⟩
  | _, _, _ => none

/-- The value of `minZ` after lines 255 to 257. -/
def Triangle3D.minZ (t : Triangle3D) : ℚ := min (min t.p1.z t.p2.z) t.p3.z

/-- The value of `maxZ` after lines 255 to 259. -/
def Triangle3D.maxZ (t : Triangle3D) : ℚ := max (max t.p1.z t.p2.z) t.p3.z

/-- The four tests of lines 260 to 268: `true` when one of them runs `continue`. The
difference `maxZ - minZ` is a `float` subtraction and each edge length is
`float(cv::norm(..))`. -/
def rejected (t : Triangle3D) : Bool :=
  if f32sub t.maxZ t.minZ > zThreshold then true
  else if roundF32 (cvNorm t.a) > sideLengthThreshold then true
  else if roundF32 (cvNorm t.b) > sideLengthThreshold then true
  else if roundF32 (cvNorm t.c) > sideLengthThreshold then true
  else false

/-- The buffers `triangles3D`, `pointNormals` and the write index `j`. -/
structure MeshBuf where
  triangles3D : List Triangle3D
  pointNormals : List Triangle3D
  j : Nat
deriving DecidableEq

/-- One iteration of the loop of lines 246 to 275. The slot `triangles3D[j]` is written through
the reference `t3d` before the tests; `pointNormals[j]` and `j` change only on acceptance. -/
def filterStep (triNormal : Point3f → Point3f → Point3f → Point3f) (indexMap : List Int)
    (cloud : List Point3f) (m : MeshBuf) (t : Triangle) : Option MeshBuf :=
  if m.j < m.triangles3D.length then
    match resolve indexMap cloud t with
    | none => none
    | some t3d =>
      let buf := m.triangles3D.set m.j t3d
      if rejected t3d then some { m with triangles3D := buf }
      else if m.j < m.pointNormals.length then
        let n := triNormal t3d.p1 t3d.p2 t3d.p3
        some { triangles3D := buf, pointNormals := m.pointNormals.set m.j ⟨n, n, n⟩, j := m.j + 1 }
      else none
  else none

/-- The loop of lines 246 to 275 over `triangles[0 .. numTriangles)`. -/
def filterFrom (triNormal : Point3f → Point3f → Point3f → Point3f) (indexMap : List Int)
    (cloud : List Point3f) : List Triangle → MeshBuf → Option MeshBuf
  | [], m => some m
  | t :: ts, m =>
    match filterStep triNormal indexMap cloud m t with
    | none => none
    | some m1 => filterFrom triNormal indexMap cloud ts m1

/-- Lines 245 to 277: the loop started with `j = 0`; the final `j` is `num3DTriangles`. -/
def filterLoop (triNormal : Point3f → Point3f → Point3f → Point3f) (indexMap : List Int)
    (cloud : List Point3f) (triangles : List Triangle) (triangles3D pointNormals : List Triangle3D) :
    Option MeshBuf :=
  filterFrom triNormal indexMap cloud triangles ⟨triangles3D, pointNormals, 0⟩

/-! ## `setupNewFrame`, `canPlayCurrentFrame`, `loopBody` -/

/-- The method `setupNewFrame`. -/
def setupNewFrame (E : Externals) (s : PlayerImpl) : Option PlayerImpl :=
  match s.currentFrame with
  | none => none
  | some frame =>
    let pc := buildCloud E.project2dPointTo3d s.depthCam s.scale frame.depth
    let tri := E.delaunay pc.points
    match filterLoop E.triNormal tri.2 pc.cloud tri.1 s.triangles3D s.pointNormals with
    | none => none
    | some m =>
      let s1 : PlayerImpl :=
        { s with points := pc.points, cloud := pc.cloud, triangles := tri.1,
                 triangles3D := m.triangles3D, pointNormals := m.pointNormals,
                 num3DTriangles := m.j }
      let s2 : PlayerImpl :=
        if s1.meanPointCalculated then s1
        else { s1 with modelCenter := E.meanPoint s1.cloud, meanPointCalculated := true }
      some { s2 with lastPlayedFrame := frame.frameNumber, frameToDraw := some frame,
                     currentFrame := none }

/-- The method `canPlayCurrentFrame`: the result and the state with the updated `once`.
The statements after the `if (!once) ... else return false;` are never reached; they are
embedded as `pacingTail`. -/
def canPlayCurrentFrame (s : PlayerImpl) (_now : Int) : Bool × PlayerImpl :=
  match s.currentFrame with
  | none => (false, s)
  | some _ =>
    if s.once then (false, s)
    else (true, { s with once := true })

/-- Lines 209 to 211 of `canPlayCurrentFrame`, which no execution reaches. -/
def pacingTail (s : PlayerImpl) (frame : Frame) (now : Int) : Bool :=
  let targetPlaybackTimeUs := frame.dTimestamp - s.firstFrameTimestamp
  let passedTimeUs := now - s.playbackStarted
  decide (passedTimeUs ≥ targetPlaybackTimeUs)

/-- Lines 175 and 176 of `loopBody`: a frame is popped from the queue when none is held;
`popped` is the result of `queue.pop`. -/
def acquireFrame (s : PlayerImpl) (popped : Option Frame) : PlayerImpl :=
  match s.currentFrame with
  | none => { s with currentFrame := popped }
  | some _ => s

/-- Lines 180 to 185 of `loopBody`: the start of a dataset resets the playback epoch. -/
def restartCheck (s : PlayerImpl) (frame : Frame) (now : Int) : PlayerImpl :=
  if frame.frameNumber < s.lastPlayedFrame then
    { s with playbackStarted := now, firstFrameTimestamp := frame.dTimestamp }
  else s

/-- The part of `draw` that touches the player state: `frameToDraw` is consumed. -/
def draw (s : PlayerImpl) : PlayerImpl :=
  { s with frameToDraw := none }

/-- Lines 187 to 191 of `loopBody`: the pacing gate, `setupNewFrame`, `draw`. -/
def gateAndDraw (E : Externals) (s : PlayerImpl) (now : Int) : Option PlayerImpl :=
  let r := canPlayCurrentFrame s now
  if r.1 then (setupNewFrame E r.2).map draw else some (draw r.2)

/-- The method `loopBody` on the player state; `popped` is what `queue.pop` gives and `now`
is the reading of the system clock in this iteration. The calls into the window system and
the returned flag (the window was not asked to close) are outside of the model. -/
def loopBody (E : Externals) (s : PlayerImpl) (popped : Option Frame) (now : Int) :
    Option PlayerImpl :=
  let s1 := acquireFrame s popped
  match s1.currentFrame with
  | none => some (draw s1)
  | some frame => gateAndDraw E (restartCheck s1 frame now) now

/-! ## Reference definitions for the point cloud -/

/-- The pixels `(row, col)` of a grid in raster-scan order: row by row, columns ascending. -/
def rasterPixels (depth : Mat) : List (Nat × Nat) :=
  (List.range depth.rows).flatMap (fun i => (List.range depth.cols).map (fun j => (i, j)))

/-- A pixel is admissible when its depth `d` satisfies `minDepth < d < maxDepth`. -/
def admissible (depth : Mat) (p : Nat × Nat) : Bool :=
  decide (minDepth < depth.atU16 p.1 p.2 ∧ depth.atU16 p.1 p.2 < maxDepth)

/-- The admissible pixels of a grid, in raster-scan order. -/
def admissiblePixels (depth : Mat) : List (Nat × Nat) :=
  (rasterPixels depth).filter (admissible depth)

/-- The pixels that are admitted: the first `shortMax` admissible ones. -/
def admittedPixels (depth : Mat) : List (Nat × Nat) :=
  (admissiblePixels depth).take shortMax

/-- The `PointIJ` stored for the native pixel `(row, col)`. -/
def scaledPoint (scale : ℚ) (p : Nat × Nat) : PointIJ :=
  ⟨toShort (f32mul scale (f32ofInt (p.1 : Int))), toShort (f32mul scale (f32ofInt (p.2 : Int)))⟩

/-- The 3D point stored for the native pixel `(row, col)`. -/
def scaledPoint3 (project : Int → Int → Nat → CameraParams → Point3f) (cam : CameraParams)
    (scale : ℚ) (depth : Mat) (p : Nat × Nat) : Point3f :=
  project (scaledPoint scale p).i (scaledPoint scale p).j (depth.atU16 p.1 p.2) cam

/-- The accumulator extended by the admissible pixels of `pix` up to the capacity. -/
def extendAcc (project : Int → Int → Nat → CameraParams → Point3f) (cam : CameraParams)
    (scale : ℚ) (depth : Mat) (acc : CloudAcc) (pix : List (Nat × Nat)) : CloudAcc :=
  { points := acc.points ++
      ((pix.filter (admissible depth)).take (shortMax - acc.points.length)).map
        (scaledPoint scale)
    cloud := acc.cloud ++
      ((pix.filter (admissible depth)).take (shortMax - acc.points.length)).map
        (scaledPoint3 project cam scale depth) }

/-- The `PointIJ` that rounding the scaled coordinates to the nearest integer would give. -/
def roundedPoint (scale : ℚ) (p : Nat × Nat) : PointIJ :=
  ⟨round (scale * (p.1 : ℚ)), round (scale * (p.2 : ℚ))⟩

/-- The `PointIJ` with the `float` products of the scale factor and the coordinates rounded
down: the product is first rounded to `float`, then cut off. -/
def flooredPoint (scale : ℚ) (p : Nat × Nat) : PointIJ :=
  ⟨⌊roundF32 (scale * roundF32 ((p.1 : Int) : ℚ))⌋, ⌊roundF32 (scale * roundF32 ((p.2 : Int) : ℚ))⌋⟩

/-! ## Reference definitions for the mesh filter -/

/-- The vertex that the index `k` of the triangulator stands for: the point of the cloud at
the position that `indexMap` gives for `k`. -/
def specVertex (indexMap : List Int) (cloud : List Point3f) (k : Int) : Point3f :=
  cloud.getD (indexMap.getD k.toNat 0).toNat ⟨0, 0, 0⟩

/-- The 3D triangle of an index triangle: each vertex index resolved through `indexMap` into
`cloud`. -/
def specResolve (indexMap : List Int) (cloud : List Point3f) (t : Triangle) : Triangle3D :=
  ⟨specVertex indexMap cloud t.p1, specVertex indexMap cloud t.p2, specVertex indexMap cloud t.p3⟩

/-- The index `k` lies in `indexMap` and the entry found there lies in `cloud`. -/
def indexInRange (indexMap : List Int) (cloud : List Point3f) (k : Int) : Prop :=
  0 ≤ k ∧ k.toNat < indexMap.length ∧ 0 ≤ indexMap.getD k.toNat 0 ∧
    (indexMap.getD k.toNat 0).toNat < cloud.length

/-- The three vertex indices of a triangle are in range. -/
def triangleInRange (indexMap : List Int) (cloud : List Point3f) (t : Triangle) : Prop :=
  indexInRange indexMap cloud t.p1 ∧ indexInRange indexMap cloud t.p2 ∧
    indexInRange indexMap cloud t.p3

instance (indexMap : List Int) (cloud : List Point3f) (t : Triangle) :
    Decidable (triangleInRange indexMap cloud t) :=
  inferInstanceAs (Decidable ((_ ∧ _ ∧ _ ∧ _) ∧ (_ ∧ _ ∧ _ ∧ _) ∧ (_ ∧ _ ∧ _ ∧ _)))

/-- The spread of the three `z` coordinates: the largest minus the smallest, as `float`. -/
def specZSpread (t : Triangle3D) : ℚ :=
  roundF32 (max t.p1.z (max t.p2.z t.p3.z) - min t.p1.z (min t.p2.z t.p3.z))

/-- The length of the edge from `p` to `q` as a `float`: the Euclidean norm, computed by
`cv::norm`, of the vector of the three `float` coordinate differences. -/
def specEdgeLength (p q : Point3f) : ℚ :=
  roundF32 (cvNorm ⟨roundF32 (q.x - p.x), roundF32 (q.y - p.y), roundF32 (q.z - p.z)⟩)

/-- Acceptance of a 3D triangle in the words of the specification: the spread of the three
`z` coordinates is at most `zThreshold` and none of the edges `p1 p2`, `p2 p3`, `p3 p1` is
longer than `sideLengthThreshold`. -/
def specAccepted (t : Triangle3D) : Prop :=
  specZSpread t ≤ zThreshold ∧ specEdgeLength t.p1 t.p2 ≤ sideLengthThreshold ∧
    specEdgeLength t.p2 t.p3 ≤ sideLengthThreshold ∧
    specEdgeLength t.p3 t.p1 ≤ sideLengthThreshold

instance (t : Triangle3D) : Decidable (specAccepted t) :=
  inferInstanceAs (Decidable (_ ∧ _ ∧ _ ∧ _))

/-- The input triangles resolved through `indexMap` into `cloud`, in input order. -/
def resolvedTriangles (indexMap : List Int) (cloud : List Point3f) (triangles : List Triangle) :
    List Triangle3D :=
  triangles.filterMap (resolve indexMap cloud)

/-- The resolved triangles that pass the four tests, in input order. -/
def acceptedTriangles (indexMap : List Int) (cloud : List Point3f) (triangles : List Triangle) :
    List Triangle3D :=
  (resolvedTriangles indexMap cloud triangles).filter (fun t => !rejected t)

/-- The contract of the triangulator that keeps `setupNewFrame` inside its buffers: at most
`cap` triangles, and every vertex index leads through `indexMap` to one of the input points. -/
def TriangulationFits (E : Externals) (cap : Nat) : Prop :=
  ∀ (pts : List PointIJ) (cloud : List Point3f), cloud.length = pts.length →
    (E.delaunay pts).1.length ≤ cap ∧
      ∀ t ∈ (E.delaunay pts).1, (resolve (E.delaunay pts).2 cloud t).isSome = true

/-! ## Reference definitions for playback -/

/-- A frame is made current and `setupNewFrame` runs on it. -/
def processFrame (E : Externals) (s : PlayerImpl) (frame : Frame) : Option PlayerImpl :=
  setupNewFrame E { s with currentFrame := some frame }

/-- A sequence of frames processed one after the other. -/
def processFrames (E : Externals) : PlayerImpl → List Frame → Option PlayerImpl
  | s, [] => some s
  | s, frame :: rest =>
    match processFrame E s frame with
    | none => none
    | some s1 => processFrames E s1 rest

/-- The pacing condition of the specification: the time elapsed since `playbackStarted` has
reached the offset of the frame from `firstFrameTimestamp`. -/
def pacingReached (s : PlayerImpl) (frame : Frame) (now : Int) : Prop :=
  now - s.playbackStarted ≥ frame.dTimestamp - s.firstFrameTimestamp

/-- A run of iterations of `loopBody`; each iteration has its result of `queue.pop` and its
reading of the clock. -/
def runLoop (E : Externals) : PlayerImpl → List (Option Frame × Int) → Option PlayerImpl
  | s, [] => some s
  | s, inp :: rest =>
    match loopBody E s inp.1 inp.2 with
    | none => none
    | some s1 => runLoop E s1 rest

/-- The frame that an iteration of `loopBody` advances to processing, if any, with the state
on which `setupNewFrame` is invoked: the gate returned `true` on the held frame. -/
def advancedFrame (s : PlayerImpl) (popped : Option Frame) (now : Int) :
    Option (PlayerImpl × Frame) :=
  match (acquireFrame s popped).currentFrame with
  | none => none
  | some frame =>
    if (canPlayCurrentFrame (restartCheck (acquireFrame s popped) frame now) now).1 then
      some ((canPlayCurrentFrame (restartCheck (acquireFrame s popped) frame now) now).2, frame)
    else none

/-- An invariant of the runs from the initial state: either the gate has been passed once, or
nothing was played and no frame is held. -/
def Fresh (s : PlayerImpl) : Prop :=
  s.once = true ∨ (s.currentFrame = none ∧ s.lastPlayedFrame = intMax)

/-! ## Concrete collaborators and inputs for examples -/

/-- Modelled from the spec: `project2dPointTo3d` is declared outside of `src/`; the standard
pinhole inverse projection of pixel `(i, j)`, the depth value passing through unchanged. -/
def pinholeProject (i j : Int) (d : Nat) (cam : CameraParams) : Point3f :=
  ⟨((j : ℚ) - cam.cx) * (d : ℚ) / cam.f, ((i : ℚ) - cam.cy) * (d : ℚ) / cam.f, (d : ℚ)⟩

/-- Modelled from the spec: `meanPoint` is declared outside of `src/`; the centroid of the
point cloud. -/
def centroid (cloud : List Point3f) : Point3f :=
  ⟨(cloud.map Point3f.x).sum / (cloud.length : ℚ), (cloud.map Point3f.y).sum / (cloud.length : ℚ),
    (cloud.map Point3f.z).sum / (cloud.length : ℚ)⟩

/-- Modelled from the spec: `triNormal` is declared outside of `src/`; a face normal from the
geometry of the triangle, here the cross product of two edges. -/
def crossNormal (p1 p2 p3 : Point3f) : Point3f :=
  let u := p2 - p1
  let v := p3 - p1
  ⟨u.y * v.z - u.z * v.y, u.z * v.x - u.x * v.z, u.x * v.y - u.y * v.x⟩

/-- A stand-in for the triangulator in examples: one triangle over the first three points when
there are three, and the identity index map. -/
def firstThree (pts : List PointIJ) : List Triangle × List Int :=
  (if 3 ≤ pts.length then [⟨0, 1, 2⟩] else [], (List.range pts.length).map Int.ofNat)

/-- The collaborators used in examples. -/
def sampleExternals : Externals :=
  { project2dPointTo3d := pinholeProject
    delaunay := firstThree
    triNormal := crossNormal
    meanPoint := centroid }

/-- A camera with focal length 500 and principal point `(320, 240)` at 640 by 480. -/
def sampleCam : CameraParams := ⟨500, 320, 240, 640, 480⟩

/-- Four points: three close together at depth 1, one far away at depth 2. -/
def sampleCloud : List Point3f :=
  [⟨0, 0, 1⟩, ⟨3 / 32, 0, 1⟩, ⟨0, 3 / 32, 1⟩, ⟨1, 1, 2⟩]

/-- An index map that permutes the first three points. -/
def sampleIndexMap : List Int := [1, 2, 0, 3]

/-- Three index triangles; the second one reaches the far point. -/
def sampleTriangles : List Triangle := [⟨0, 1, 2⟩, ⟨1, 2, 3⟩, ⟨2, 0, 1⟩]

/-- A triangle buffer of four default triangles. -/
def sampleBuf : List Triangle3D := List.replicate 4 zeroTriangle

/-- The 3D triangle of `sampleTriangles[1]`: it spans the far point. -/
def farTriangle : Triangle3D := ⟨⟨0, 3 / 32, 1⟩, ⟨0, 0, 1⟩, ⟨1, 1, 2⟩⟩

/-- Three points with `float` coordinates at one depth; the second lies at distance `0.15f`
from the first along the `x` axis, the third is closer to both. -/
def boundaryCloud : List Point3f :=
  [⟨0, 0, 1⟩, ⟨5033165 / 33554432, 0, 1⟩, ⟨1 / 16, 3 / 32, 1⟩]

/-- The 3D triangle over `boundaryCloud`. -/
def boundaryTriangle : Triangle3D :=
  ⟨⟨0, 0, 1⟩, ⟨5033165 / 33554432, 0, 1⟩, ⟨1 / 16, 3 / 32, 1⟩⟩

/-- The same triangle with the second point moved to `x = 1 / 8`: every edge is shorter than
`0.15f`. -/
def shorterCloud : List Point3f := [⟨0, 0, 1⟩, ⟨1 / 8, 0, 1⟩, ⟨1 / 16, 3 / 32, 1⟩]

/-- A sensor of width 400: `init` gives it the scale factor `1.6f`. -/
def wideCam : CameraParams := ⟨500, 200, 150, 400, 300⟩

/-- The player after `init` for the sensor of width 400. -/
def widePlayer : PlayerImpl := PlayerImpl.init 4 wideCam

/-- A grid of 2 by 2 pixels, all of depth 1000. -/
def flatGrid : Mat := ⟨2, 2, fun _ _ => 1000⟩

/-- A grid of one row and three columns with depths 1000, 2000, 3000. -/
def rampGrid : Mat := ⟨1, 3, fun _ j => 1000 * (j + 1)⟩

/-- A grid of 2 by 2 pixels with no admissible depth. -/
def voidGrid : Mat := ⟨2, 2, fun _ _ => 0⟩

/-- The player after `init` with buffers of four triangles and a sensor of width 640. -/
def samplePlayer : PlayerImpl := PlayerImpl.init 4 sampleCam

/-- A player that holds frame 5 with timestamp 1000 after an earlier call of the gate;
the playback epoch is `(0, 0)`. -/
def heldPlayer : PlayerImpl :=
  { samplePlayer with currentFrame := some ⟨5, 1000, flatGrid⟩, lastPlayedFrame := 4, once := true }

/-- A frame without any admissible pixel. -/
def voidFrame : Frame := ⟨0, 0, voidGrid⟩

/-- A frame with four admissible pixels. -/
def flatFrame : Frame := ⟨1, 33333, flatGrid⟩

/-- The point cloud of `flatFrame` for `samplePlayer`. -/
def flatCloud : List Point3f :=
  (buildCloud pinholeProject samplePlayer.depthCam samplePlayer.scale flatGrid).cloud

/-! ## Lemmas on the point cloud loops -/

section CloudLemmas

variable (project : Int → Int → Nat → CameraParams → Point3f) (cam : CameraParams)
  (scale : ℚ) (depth : Mat)

theorem extendAcc_nil (acc : CloudAcc) : extendAcc project cam scale depth acc [] = acc := by
  cases acc
  simp [extendAcc]

theorem extendAcc_points_length (acc : CloudAcc) (pix : List (Nat × Nat)) :
    (extendAcc project cam scale depth acc pix).points.length
      = acc.points.length +
          min (shortMax - acc.points.length) (pix.filter (admissible depth)).length := by
  simp [extendAcc]

theorem extendAcc_append (acc : CloudAcc) (xs ys : List (Nat × Nat)) :
    extendAcc project cam scale depth (extendAcc project cam scale depth acc xs) ys
      = extendAcc project cam scale depth acc (xs ++ ys) := by
  have hlen := extendAcc_points_length project cam scale depth acc xs
  have key : shortMax - (extendAcc project cam scale depth acc xs).points.length
      = shortMax - acc.points.length - (xs.filter (admissible depth)).length := by
    rw [hlen]; omega
  simp only [extendAcc] at key ⊢
  rw [key]
  simp [List.filter_append, List.take_append_eq_append_take, List.append_assoc]

theorem cloudInner_eq (acc : CloudAcc) (i j : Nat) :
    cloudInner project cam scale depth i (toShort (f32mul scale (f32ofInt (i : Int)))) acc j
      = extendAcc project cam scale depth acc [(i, j)] := by
  unfold cloudInner
  by_cases hd : depth.atU16 i j > minDepth ∧ depth.atU16 i j < maxDepth
  · by_cases hc : acc.points.length < shortMax
    · have hpos : shortMax - acc.points.length = (shortMax - acc.points.length - 1) + 1 := by
        omega
      have hadm : admissible depth (i, j) = true := by
        simpa [admissible] using hd
      simp only [hd, hc, and_self, if_true, extendAcc, List.filter_cons, hadm,
        List.filter_nil]
      rw [hpos]
      simp [scaledPoint, scaledPoint3]
    · have hz : shortMax - acc.points.length = 0 := by omega
      cases acc
      simp_all [extendAcc]
  · have hadm : admissible depth (i, j) = false := by
      simpa [admissible] using hd
    have hcond : ¬ (depth.atU16 i j > minDepth ∧ depth.atU16 i j < maxDepth ∧
        acc.points.length < shortMax) := fun h => hd ⟨h.1, h.2.1⟩
    cases acc
    simp [hcond, extendAcc, hadm]

theorem cloudInner_foldl (i : Nat) (js : List Nat) (acc : CloudAcc) :
    js.foldl (cloudInner project cam scale depth i (toShort (f32mul scale (f32ofInt (i : Int))))) acc
      = extendAcc project cam scale depth acc (js.map (fun j => (i, j))) := by
  induction js generalizing acc with
  | nil => simp [extendAcc_nil]
  | cons j js ih =>
    rw [List.foldl_cons, ih, cloudInner_eq, extendAcc_append]
    rfl

theorem cloudRow_foldl (rs : List Nat) (acc : CloudAcc) :
    rs.foldl (cloudRow project cam scale depth) acc
      = extendAcc project cam scale depth acc
          (rs.flatMap (fun i => (List.range depth.cols).map (fun j => (i, j)))) := by
  induction rs generalizing acc with
  | nil => simp [extendAcc_nil]
  | cons i rs ih =>
    rw [List.foldl_cons, ih]
    unfold cloudRow
    rw [cloudInner_foldl, extendAcc_append]
    rfl

theorem buildCloud_eq :
    buildCloud project cam scale depth
      = { points := (admittedPixels depth).map (scaledPoint scale)
          cloud := (admittedPixels depth).map (scaledPoint3 project cam scale depth) } := by
  unfold buildCloud
  rw [cloudRow_foldl]
  simp [extendAcc, admittedPixels, admissiblePixels, rasterPixels]

end CloudLemmas

/-! ## Lemmas on the floating point arithmetic -/

theorem pow2_eq_zpow (k : Int) : pow2 k = (2 : ℚ) ^ k := by
  unfold pow2
  split
  · rename_i h
    obtain ⟨n, rfl⟩ := Int.eq_ofNat_of_zero_le h
    simp
  · rename_i h
    have h1 : 0 ≤ -k := by omega
    obtain ⟨n, hn⟩ := Int.eq_ofNat_of_zero_le h1
    have hk : k = -(n : Int) := by omega
    subst hk
    simp

theorem pow2_pos (k : Int) : 0 < pow2 k := by
  rw [pow2_eq_zpow]
  positivity

theorem log2Fuel_spec (f n : Nat) (hn : 0 < n) (hf : n ≤ f) :
    2 ^ log2Fuel f n ≤ n ∧ n < 2 ^ (log2Fuel f n + 1) := by
  induction f generalizing n with
  | zero => omega
  | succ f ih =>
    unfold log2Fuel
    by_cases h2 : n < 2
    · have h1 : n = 1 := by omega
      subst h1
      simp
    · rw [if_neg h2]
      have hd : 0 < n / 2 := Nat.div_pos (by omega) (by omega)
      have hdf : n / 2 ≤ f := by omega
      obtain ⟨a, b⟩ := ih (n / 2) hd hdf
      constructor
      · rw [pow_succ]
        omega
      · rw [pow_succ]
        omega

theorem natLog2_spec (n : Nat) (hn : 0 < n) :
    2 ^ natLog2 n ≤ n ∧ n < 2 ^ (natLog2 n + 1) :=
  log2Fuel_spec n n hn (le_refl n)

theorem roundNE_near (y : ℚ) : |(roundNE y : ℚ) - y| ≤ 1 / 2 := by
  have h0 : (⌊y⌋ : ℚ) ≤ y := Int.floor_le y
  have h1 : y < (⌊y⌋ : ℚ) + 1 := Int.lt_floor_add_one y
  unfold roundNE
  split
  · rw [abs_le]; constructor <;> linarith
  · split
    · push_cast; rw [abs_le]; constructor <;> linarith
    · split
      · rw [abs_le]; constructor <;> linarith
      · push_cast; rw [abs_le]; constructor <;> linarith

theorem roundNE_nonneg (y : ℚ) (h : 0 ≤ y) : 0 ≤ roundNE y := by
  have h0 : 0 ≤ ⌊y⌋ := Int.floor_nonneg.mpr h
  unfold roundNE
  split
  · exact h0
  · split
    · omega
    · split
      · exact h0
      · omega

theorem roundBin_nonneg (prec : Nat) (emin : Int) (x : ℚ) (h : 0 ≤ x) :
    0 ≤ roundBin prec emin x := by
  unfold roundBin
  split
  · exact le_refl 0
  · apply mul_nonneg
    · exact_mod_cast roundNE_nonneg _ (div_nonneg h (pow2_pos _).le)
    · exact (pow2_pos _).le

theorem roundBin_near (prec : Nat) (emin : Int) (x : ℚ) :
    |roundBin prec emin x - x| ≤ pow2 (max (floorLog2 x) emin - (prec : Int)) / 2 := by
  unfold roundBin
  split
  · rename_i h
    subst h
    simp only [sub_self, abs_zero]
    exact div_nonneg (pow2_pos _).le (by norm_num)
  · have hq := pow2_pos (max (floorLog2 x) emin - (prec : Int))
    have h := roundNE_near (x / pow2 (max (floorLog2 x) emin - (prec : Int)))
    have e : (roundNE (x / pow2 (max (floorLog2 x) emin - (prec : Int))) : ℚ)
          * pow2 (max (floorLog2 x) emin - (prec : Int)) - x
        = ((roundNE (x / pow2 (max (floorLog2 x) emin - (prec : Int))) : ℚ)
            - x / pow2 (max (floorLog2 x) emin - (prec : Int)))
          * pow2 (max (floorLog2 x) emin - (prec : Int)) := by
      field_simp
    rw [e, abs_mul, abs_of_pos hq]
    calc _ ≤ 1 / 2 * pow2 (max (floorLog2 x) emin - (prec : Int)) :=
          mul_le_mul_of_nonneg_right h hq.le
      _ = _ := by ring

theorem isqrtAux_spec (n : Nat) (k r : Nat) (h1 : r * r ≤ n)
    (h2 : n < (r + 2 ^ k) * (r + 2 ^ k)) :
    isqrtAux n k r * isqrtAux n k r ≤ n ∧
      n < (isqrtAux n k r + 1) * (isqrtAux n k r + 1) := by
  induction k generalizing r with
  | zero => simpa [isqrtAux] using ⟨h1, h2⟩
  | succ k ih =>
    unfold isqrtAux
    by_cases hc : (r + 2 ^ k) * (r + 2 ^ k) ≤ n
    · rw [if_pos hc]
      apply ih _ hc
      have : r + 2 ^ k + 2 ^ k = r + 2 ^ (k + 1) := by rw [pow_succ]; ring
      rw [this]
      exact h2
    · rw [if_neg hc]
      exact ih _ h1 (not_le.mp hc)

theorem isqrt_spec (n : Nat) : isqrt n * isqrt n ≤ n ∧ n < (isqrt n + 1) * (isqrt n + 1) := by
  unfold isqrt
  apply isqrtAux_spec
  · simp
  · rcases Nat.eq_zero_or_pos n with h | h
    · subst h
      simp
    · obtain ⟨_, b⟩ := natLog2_spec n h
      have h3 : 2 ^ (natLog2 n + 1) ≤ 2 ^ (natLog2 n / 2 + 1) * 2 ^ (natLog2 n / 2 + 1) := by
        rw [← pow_add]
        apply Nat.pow_le_pow_right (by norm_num)
        omega
      simp only [Nat.zero_add]
      omega


theorem pow2_add_one (k : Int) : pow2 (k + 1) = 2 * pow2 k := by
  rw [pow2_eq_zpow, pow2_eq_zpow, zpow_add_one₀ (by norm_num : (2 : ℚ) ≠ 0)]
  ring

theorem pow2_natLog2_sub (n d : Nat) :
    pow2 ((natLog2 n : Int) - (natLog2 d : Int))
      = ((2 ^ natLog2 n : Nat) : ℚ) / ((2 ^ natLog2 d : Nat) : ℚ) := by
  rw [pow2_eq_zpow, zpow_sub₀ (by norm_num : (2 : ℚ) ≠ 0)]
  simp

/-- The exponent found by `floorLog2` brackets a positive rational between two powers of 2. -/
theorem floorLog2_spec (x : ℚ) (hx : 0 < x) :
    pow2 (floorLog2 x) ≤ x ∧ x < pow2 (floorLog2 x + 1) := by
  have hnum : 0 < x.num := Rat.num_pos.mpr hx
  have hn : 0 < x.num.natAbs := Int.natAbs_pos.mpr hnum.ne'
  have hd : 0 < x.den := x.den_pos
  obtain ⟨n1, n2⟩ := natLog2_spec x.num.natAbs hn
  obtain ⟨d1, d2⟩ := natLog2_spec x.den hd
  have hcast : ((x.num.natAbs : Nat) : ℚ) = (x.num : ℚ) := by
    rw [← Int.cast_natCast, Int.natAbs_of_nonneg hnum.le]
  have hxD : x * (x.den : ℚ) = ((x.num.natAbs : Nat) : ℚ) := by
    rw [hcast]
    exact Rat.mul_den_eq_num x
  have hpn : (0 : ℚ) < ((2 ^ natLog2 x.num.natAbs : Nat) : ℚ) := by positivity
  have hpd : (0 : ℚ) < ((2 ^ natLog2 x.den : Nat) : ℚ) := by positivity
  have n1q : ((2 ^ natLog2 x.num.natAbs : Nat) : ℚ) ≤ (x.num.natAbs : ℚ) := by exact_mod_cast n1
  have n2q : (x.num.natAbs : ℚ) < 2 * ((2 ^ natLog2 x.num.natAbs : Nat) : ℚ) := by
    have : (x.num.natAbs : ℚ) < ((2 ^ (natLog2 x.num.natAbs + 1) : Nat) : ℚ) := by
      exact_mod_cast n2
    rw [pow_succ] at this
    push_cast at this ⊢
    linarith
  have d1q : ((2 ^ natLog2 x.den : Nat) : ℚ) ≤ (x.den : ℚ) := by exact_mod_cast d1
  have d2q : (x.den : ℚ) < 2 * ((2 ^ natLog2 x.den : Nat) : ℚ) := by
    have : (x.den : ℚ) < ((2 ^ (natLog2 x.den + 1) : Nat) : ℚ) := by exact_mod_cast d2
    rw [pow_succ] at this
    push_cast at this ⊢
    linarith
  have habs : |x| = x := abs_of_pos hx
  have hsub := pow2_natLog2_sub x.num.natAbs x.den
  unfold floorLog2
  simp only [habs]
  split
  · rename_i hle
    refine ⟨hle, ?_⟩
    rw [pow2_add_one, hsub, ← mul_div_assoc, lt_div_iff₀ hpd]
    have h1 : x * ((2 ^ natLog2 x.den : Nat) : ℚ) ≤ x * (x.den : ℚ) :=
      mul_le_mul_of_nonneg_left d1q hx.le
    linarith
  · rename_i hle
    have hlt := not_le.mp hle
    have e1 : (natLog2 x.num.natAbs : Int) - (natLog2 x.den : Int) - 1 + 1
        = (natLog2 x.num.natAbs : Int) - (natLog2 x.den : Int) := by ring
    refine ⟨?_, by rw [e1]; exact hlt⟩
    have e2 : pow2 ((natLog2 x.num.natAbs : Int) - (natLog2 x.den : Int))
        = 2 * pow2 ((natLog2 x.num.natAbs : Int) - (natLog2 x.den : Int) - 1) := by
      rw [← pow2_add_one, e1]
    have e3 : pow2 ((natLog2 x.num.natAbs : Int) - (natLog2 x.den : Int) - 1)
        = ((2 ^ natLog2 x.num.natAbs : Nat) : ℚ) / (2 * ((2 ^ natLog2 x.den : Nat) : ℚ)) := by
      rw [e2] at hsub
      rw [div_mul_eq_div_div_swap, ← hsub]
      ring
    rw [e3, div_le_iff₀ (by positivity)]
    have h2 : x * (x.den : ℚ) ≤ x * (2 * ((2 ^ natLog2 x.den : Nat) : ℚ)) :=
      mul_le_mul_of_nonneg_left d2q.le hx.le
    linarith

/-- The integer chosen by `sqrtNE` is a nearest integer to the real square root. -/
theorem sqrtNE_near (y : ℚ) (hy : 0 ≤ y) :
    |((sqrtNE y : Int) : ℝ) - Real.sqrt ((y : ℚ) : ℝ)| ≤ 1 / 2 := by
  obtain ⟨s1, s2⟩ := isqrt_spec ⌊y⌋.toNat
  have hf0 : 0 ≤ ⌊y⌋ := Int.floor_nonneg.mpr hy
  have hfl : ((⌊y⌋.toNat : Nat) : Int) = ⌊y⌋ := Int.toNat_of_nonneg hf0
  have hflq : ((⌊y⌋.toNat : Nat) : ℚ) = (⌊y⌋ : ℚ) := by exact_mod_cast congrArg (Int.cast (R := ℚ)) hfl
  have h0 : (⌊y⌋ : ℚ) ≤ y := Int.floor_le y
  have h1 : y < (⌊y⌋ : ℚ) + 1 := Int.lt_floor_add_one y
  have a1 : ((isqrt ⌊y⌋.toNat : Nat) : ℚ) * (isqrt ⌊y⌋.toNat : ℚ) ≤ y := by
    have : ((isqrt ⌊y⌋.toNat * isqrt ⌊y⌋.toNat : Nat) : ℚ) ≤ ((⌊y⌋.toNat : Nat) : ℚ) := by
      exact_mod_cast s1
    push_cast at this
    linarith
  have a2 : y < ((isqrt ⌊y⌋.toNat : ℚ) + 1) * ((isqrt ⌊y⌋.toNat : ℚ) + 1) := by
    have : ((⌊y⌋.toNat + 1 : Nat) : ℚ)
        ≤ (((isqrt ⌊y⌋.toNat + 1) * (isqrt ⌊y⌋.toNat + 1) : Nat) : ℚ) := by
      exact_mod_cast s2
    push_cast at this
    linarith
  have hm0 : (0 : ℝ) ≤ ((isqrt ⌊y⌋.toNat : Nat) : ℝ) := by positivity
  have hyR : (0 : ℝ) ≤ ((y : ℚ) : ℝ) := by exact_mod_cast hy
  have b1 : ((isqrt ⌊y⌋.toNat : Nat) : ℝ) ≤ Real.sqrt ((y : ℚ) : ℝ) := by
    apply Real.le_sqrt_of_sq_le
    have : (((isqrt ⌊y⌋.toNat : ℚ) * (isqrt ⌊y⌋.toNat : ℚ) : ℚ) : ℝ) ≤ ((y : ℚ) : ℝ) := by
      exact_mod_cast a1
    push_cast at this
    nlinarith
  have b2 : Real.sqrt ((y : ℚ) : ℝ) < ((isqrt ⌊y⌋.toNat : Nat) : ℝ) + 1 := by
    rw [Real.sqrt_lt' (by positivity)]
    have : ((y : ℚ) : ℝ)
        < ((((isqrt ⌊y⌋.toNat : ℚ) + 1) * ((isqrt ⌊y⌋.toNat : ℚ) + 1) : ℚ) : ℝ) := by
      exact_mod_cast a2
    push_cast at this
    nlinarith
  unfold sqrtNE
  split
  · rename_i c
    have cR : (4 : ℝ) * ((y : ℚ) : ℝ) < (2 * ((isqrt ⌊y⌋.toNat : Nat) : ℝ) + 1) ^ 2 := by
      have : ((4 * y : ℚ) : ℝ) < (((2 * (isqrt ⌊y⌋.toNat : ℚ) + 1) ^ 2 : ℚ) : ℝ) := by
        exact_mod_cast c
      push_cast at this
      exact this
    have b3 : Real.sqrt ((y : ℚ) : ℝ) < ((isqrt ⌊y⌋.toNat : Nat) : ℝ) + 1 / 2 := by
      rw [Real.sqrt_lt' (by positivity)]
      nlinarith
    push_cast
    rw [abs_le]
    constructor <;> linarith
  · split
    · rename_i c
      have cR : (2 * ((isqrt ⌊y⌋.toNat : Nat) : ℝ) + 1) ^ 2 < (4 : ℝ) * ((y : ℚ) : ℝ) := by
        have : (((2 * (isqrt ⌊y⌋.toNat : ℚ) + 1) ^ 2 : ℚ) : ℝ) < ((4 * y : ℚ) : ℝ) := by
          exact_mod_cast c
        push_cast at this
        exact this
      have b3 : ((isqrt ⌊y⌋.toNat : Nat) : ℝ) + 1 / 2 < Real.sqrt ((y : ℚ) : ℝ) := by
        rw [Real.lt_sqrt (by positivity)]
        nlinarith
      push_cast
      rw [abs_le]
      constructor <;> linarith
    · rename_i c1 c2
      have ceq : (4 : ℝ) * ((y : ℚ) : ℝ) = (2 * ((isqrt ⌊y⌋.toNat : Nat) : ℝ) + 1) ^ 2 := by
        have : ((4 * y : ℚ) : ℝ) = (((2 * (isqrt ⌊y⌋.toNat : ℚ) + 1) ^ 2 : ℚ) : ℝ) := by
          exact_mod_cast le_antisymm (not_lt.mp c2) (not_lt.mp c1)
        push_cast at this
        exact this
      have b3 : Real.sqrt ((y : ℚ) : ℝ) = ((isqrt ⌊y⌋.toNat : Nat) : ℝ) + 1 / 2 := by
        rw [Real.sqrt_eq_iff_mul_self_eq hyR (by positivity)]
        nlinarith
      split
      · push_cast
        rw [b3, abs_le]
        constructor <;> linarith
      · push_cast
        rw [b3, abs_le]
        constructor <;> linarith

/-- The result of `roundF32` differs from its argument by at most half a unit of the last
place. -/
theorem roundF32_near (x : ℚ) :
    |roundF32 x - x| ≤ pow2 (max (floorLog2 x) (-126) - 23) / 2 :=
  roundBin_near 23 (-126) x

theorem roundF32_nonneg (x : ℚ) (h : 0 ≤ x) : 0 ≤ roundF32 x :=
  roundBin_nonneg 23 (-126) x h

/-- The result of `sqrtF64` differs from the real square root by at most half a unit of the
last place of a `double`. -/
theorem sqrtF64_near (x : ℚ) (hx : 0 < x) :
    |((sqrtF64 x : ℚ) : ℝ) - Real.sqrt ((x : ℚ) : ℝ)|
      ≤ ((pow2 (floorLog2 x / 2 - 52) / 2 : ℚ) : ℝ) := by
  have hq := pow2_pos (floorLog2 x / 2 - 52)
  have hqR : (0 : ℝ) < ((pow2 (floorLog2 x / 2 - 52) : ℚ) : ℝ) := by exact_mod_cast hq
  have hy : 0 ≤ x / (pow2 (floorLog2 x / 2 - 52) * pow2 (floorLog2 x / 2 - 52)) :=
    div_nonneg hx.le (mul_nonneg hq.le hq.le)
  have h := sqrtNE_near _ hy
  have hs : Real.sqrt (((x / (pow2 (floorLog2 x / 2 - 52) * pow2 (floorLog2 x / 2 - 52)) : ℚ)) : ℝ)
      = Real.sqrt ((x : ℚ) : ℝ) / ((pow2 (floorLog2 x / 2 - 52) : ℚ) : ℝ) := by
    push_cast
    rw [Real.sqrt_div' _ (mul_nonneg hqR.le hqR.le), Real.sqrt_mul_self hqR.le]
  rw [hs] at h
  unfold sqrtF64
  rw [if_neg (not_le.mpr hx)]
  push_cast
  have e : ((sqrtNE (x / (pow2 (floorLog2 x / 2 - 52) * pow2 (floorLog2 x / 2 - 52))) : Int) : ℝ)
        * ((pow2 (floorLog2 x / 2 - 52) : ℚ) : ℝ) - Real.sqrt ((x : ℚ) : ℝ)
      = (((sqrtNE (x / (pow2 (floorLog2 x / 2 - 52) * pow2 (floorLog2 x / 2 - 52))) : Int) : ℝ)
          - Real.sqrt ((x : ℚ) : ℝ) / ((pow2 (floorLog2 x / 2 - 52) : ℚ) : ℝ))
        * ((pow2 (floorLog2 x / 2 - 52) : ℚ) : ℝ) := by
    field_simp
  rw [e, abs_mul, abs_of_pos hqR]
  calc _ ≤ 1 / 2 * ((pow2 (floorLog2 x / 2 - 52) : ℚ) : ℝ) :=
        mul_le_mul_of_nonneg_right h hqR.le
    _ = _ := by ring

/-- The thresholds are the `float` values of the decimal literals of the source, and the
arithmetic reproduces known `float` and `double` results: `0.7f`, `0.7f * 10`, the square
root of 2 in `double`, and the norm of a vector of length `0.15f`. -/
theorem float_checks :
    zThreshold = roundF32 (1 / 10) ∧ sideLengthThreshold = roundF32 (15 / 100) ∧
      roundF32 (7 / 10) = 11744051 / 16777216 ∧
      f32mul (roundF32 (7 / 10)) (f32ofInt 10) = 7 ∧
      roundF32 16777217 = 16777216 ∧
      roundF64 (1 / 10) = 3602879701896397 / 36028797018963968 ∧
      sqrtF64 2 = 6369051672525773 / 4503599627370496 ∧
      cvNorm ⟨3, 4, 12⟩ = 13 ∧
      roundF32 (cvNorm ⟨sideLengthThreshold, 0, 0⟩) = sideLengthThreshold := by
  decide!

/-! ## Lemmas on resolution and on the acceptance tests -/

theorem vecAt_getD {α : Type} (v : List α) (k : Int) (d : α) (h0 : 0 ≤ k)
    (h1 : k.toNat < v.length) : vecAt v k = some (v.getD k.toNat d) := by
  unfold vecAt
  rw [if_pos h0, List.getD_eq_getElem?_getD, List.getElem?_eq_getElem h1]
  rfl

theorem vertexAt_eq_spec (indexMap : List Int) (cloud : List Point3f) (k : Int)
    (h : indexInRange indexMap cloud k) :
    vertexAt indexMap cloud k = some (specVertex indexMap cloud k) := by
  obtain ⟨h0, h1, h2, h3⟩ := h
  unfold vertexAt specVertex
  rw [vecAt_getD indexMap k 0 h0 h1, Option.some_bind, vecAt_getD cloud _ ⟨0, 0, 0⟩ h2 h3]

theorem resolve_eq_spec (indexMap : List Int) (cloud : List Point3f) (t : Triangle)
    (h : triangleInRange indexMap cloud t) :
    resolve indexMap cloud t = some (specResolve indexMap cloud t) := by
  obtain ⟨h1, h2, h3⟩ := h
  unfold resolve specResolve
  rw [vertexAt_eq_spec indexMap cloud t.p1 h1, vertexAt_eq_spec indexMap cloud t.p2 h2,
    vertexAt_eq_spec indexMap cloud t.p3 h3]

/-- The four tests of the loop reject a triangle exactly when it is not accepted in the words
of the specification. -/
theorem rejected_eq_spec (t : Triangle3D) : rejected t = !decide (specAccepted t) := by
  have hz : f32sub t.maxZ t.minZ = specZSpread t := by
    unfold f32sub Triangle3D.maxZ Triangle3D.minZ specZSpread
    rw [max_assoc, min_assoc]
  have ha : roundF32 (cvNorm t.a) = specEdgeLength t.p1 t.p2 := rfl
  have hb : roundF32 (cvNorm t.b) = specEdgeLength t.p2 t.p3 := rfl
  have hc : roundF32 (cvNorm t.c) = specEdgeLength t.p3 t.p1 := rfl
  unfold rejected specAccepted
  rw [hz, ha, hb, hc]
  by_cases h1 : specZSpread t > zThreshold
  · have h1n : ¬ specZSpread t ≤ zThreshold := not_le.mpr h1
    simp [h1, h1n]
  · have h1p : specZSpread t ≤ zThreshold := not_lt.mp h1
    by_cases h2 : specEdgeLength t.p1 t.p2 > sideLengthThreshold
    · have h2n : ¬ specEdgeLength t.p1 t.p2 ≤ sideLengthThreshold := not_le.mpr h2
      simp [h1, h2, h2n]
    · have h2p : specEdgeLength t.p1 t.p2 ≤ sideLengthThreshold := not_lt.mp h2
      by_cases h3 : specEdgeLength t.p2 t.p3 > sideLengthThreshold
      · have h3n : ¬ specEdgeLength t.p2 t.p3 ≤ sideLengthThreshold := not_le.mpr h3
        simp [h1, h2, h3, h3n]
      · have h3p : specEdgeLength t.p2 t.p3 ≤ sideLengthThreshold := not_lt.mp h3
        by_cases h4 : specEdgeLength t.p3 t.p1 > sideLengthThreshold
        · have h4n : ¬ specEdgeLength t.p3 t.p1 ≤ sideLengthThreshold := not_le.mpr h4
          simp [h1, h2, h3, h4, h4n]
        · have h4p : specEdgeLength t.p3 t.p1 ≤ sideLengthThreshold := not_lt.mp h4
          simp [h1, h2, h3, h4, h1p, h2p, h3p, h4p]

/-! ## Lemmas on the mesh filter loop -/

theorem take_set_self {α : Type} (l : List α) (j : Nat) (x : α) :
    (l.set j x).take j = l.take j := by
  apply List.ext_getElem?
  intro k
  by_cases hk : k < j
  · have hne : j ≠ k := by omega
    simp [List.getElem?_take, hk, List.getElem?_set_ne hne]
  · simp [List.getElem?_take, hk]

theorem take_succ_set {α : Type} (l : List α) (j : Nat) (x : α) (h : j < l.length) :
    (l.set j x).take (j + 1) = l.take j ++ [x] := by
  rw [List.take_succ, take_set_self, List.getElem?_set_self h]
  rfl

section FilterLemmas

variable (triNormal : Point3f → Point3f → Point3f → Point3f) (indexMap : List Int)
  (cloud : List Point3f)

theorem acceptedTriangles_nil : acceptedTriangles indexMap cloud [] = [] := rfl

theorem acceptedTriangles_cons (t : Triangle) (ts : List Triangle) (t3d : Triangle3D)
    (h : resolve indexMap cloud t = some t3d) :
    acceptedTriangles indexMap cloud (t :: ts)
      = if rejected t3d then acceptedTriangles indexMap cloud ts
        else t3d :: acceptedTriangles indexMap cloud ts := by
  unfold acceptedTriangles resolvedTriangles
  rw [List.filterMap_cons_some h, List.filter_cons]
  cases rejected t3d <;> simp

theorem acceptedTriangles_length_le (ts : List Triangle) :
    (acceptedTriangles indexMap cloud ts).length ≤ ts.length := by
  unfold acceptedTriangles resolvedTriangles
  exact le_trans (List.length_filter_le _ _) (List.length_filterMap_le _ _)

end FilterLemmas

section FilterLoop

variable (triNormal : Point3f → Point3f → Point3f → Point3f) (indexMap : List Int)
  (cloud : List Point3f)

/-- The invariant of the filter loop. As long as the write index stays inside both buffers at
the start of every iteration, the loop runs to its end, `j` grows by the number of accepted
triangles, these are appended to the valid prefix in input order, the buffers keep their
sizes, and the slots behind the new `j` keep their content. -/
theorem filterFrom_spec (ts : List Triangle) (m : MeshBuf)
    (hroom : ∀ k, k < ts.length →
      m.j + (acceptedTriangles indexMap cloud (ts.take k)).length < m.triangles3D.length)
    (hroomN : ∀ k, k < ts.length →
      m.j + (acceptedTriangles indexMap cloud (ts.take k)).length < m.pointNormals.length)
    (hres : ∀ t ∈ ts, (resolve indexMap cloud t).isSome = true) :
    ∃ r, filterFrom triNormal indexMap cloud ts m = some r ∧
      r.j = m.j + (acceptedTriangles indexMap cloud ts).length ∧
      r.triangles3D.length = m.triangles3D.length ∧
      r.pointNormals.length = m.pointNormals.length ∧
      r.triangles3D.take r.j = m.triangles3D.take m.j ++ acceptedTriangles indexMap cloud ts ∧
      (∀ k, r.j < k → r.triangles3D[k]? = m.triangles3D[k]?) ∧
      (∀ k, r.j ≤ k → r.pointNormals[k]? = m.pointNormals[k]?) := by
  induction ts generalizing m with
  | nil =>
    exact ⟨m, rfl, by simp [acceptedTriangles_nil], rfl, rfl,
      by simp [acceptedTriangles_nil], fun _ _ => rfl, fun _ _ => rfl⟩
  | cons t ts ih =>
    have hj : m.j < m.triangles3D.length := by
      simpa [acceptedTriangles_nil] using hroom 0 (by simp)
    have hjN : m.j < m.pointNormals.length := by
      simpa [acceptedTriangles_nil] using hroomN 0 (by simp)
    obtain ⟨t3d, ht⟩ := Option.isSome_iff_exists.mp (hres t (List.mem_cons_self t ts))
    have hres1 : ∀ u ∈ ts, (resolve indexMap cloud u).isSome = true :=
      fun u hu => hres u (List.mem_cons_of_mem t hu)
    have hstepRoom : ∀ k, k < ts.length →
        m.j + (if rejected t3d then 0 else 1)
          + (acceptedTriangles indexMap cloud (ts.take k)).length < m.triangles3D.length := by
      intro k hk
      have h := hroom (k + 1) (by simpa using hk)
      rw [List.take_succ_cons, acceptedTriangles_cons indexMap cloud t _ t3d ht] at h
      cases hr : rejected t3d <;> simp [hr] at h ⊢ <;> omega
    have hstepRoomN : ∀ k, k < ts.length →
        m.j + (if rejected t3d then 0 else 1)
          + (acceptedTriangles indexMap cloud (ts.take k)).length < m.pointNormals.length := by
      intro k hk
      have h := hroomN (k + 1) (by simpa using hk)
      rw [List.take_succ_cons, acceptedTriangles_cons indexMap cloud t _ t3d ht] at h
      cases hr : rejected t3d <;> simp [hr] at h ⊢ <;> omega
    by_cases hrej : rejected t3d = true
    · have hstep : filterStep triNormal indexMap cloud m t
          = some { m with triangles3D := m.triangles3D.set m.j t3d } := by
        simp [filterStep, hj, ht, hrej]
      obtain ⟨r, hr, hrj, hl3, hlN, htake, hrest, hrestN⟩ :=
        ih { m with triangles3D := m.triangles3D.set m.j t3d }
          (by intro k hk; simpa [hrej] using hstepRoom k hk)
          (by intro k hk; simpa [hrej] using hstepRoomN k hk) hres1
      refine ⟨r, ?_, ?_, ?_, ?_, ?_, ?_, ?_⟩
      · simp only [filterFrom, hstep, hr]
      · rw [acceptedTriangles_cons indexMap cloud t ts t3d ht, hrj]
        simp [hrej]
      · simpa using hl3
      · simpa using hlN
      · rw [acceptedTriangles_cons indexMap cloud t ts t3d ht, htake]
        simp [hrej, take_set_self]
      · intro k hk
        have hjk : m.j ≠ k := by
          have : m.j ≤ r.j := by rw [hrj]; simp
          omega
        rw [hrest k hk]
        simp [List.getElem?_set_ne hjk]
      · intro k hk
        simpa using hrestN k hk
    · have hrej1 : rejected t3d = false := by simpa using hrej
      have hstep : filterStep triNormal indexMap cloud m t
          = some { triangles3D := m.triangles3D.set m.j t3d
                   pointNormals := m.pointNormals.set m.j
                     ⟨triNormal t3d.p1 t3d.p2 t3d.p3, triNormal t3d.p1 t3d.p2 t3d.p3,
                       triNormal t3d.p1 t3d.p2 t3d.p3⟩
                   j := m.j + 1 } := by
        simp [filterStep, hj, hjN, ht, hrej1]
      obtain ⟨r, hr, hrj, hl3, hlN, htake, hrest, hrestN⟩ :=
        ih { triangles3D := m.triangles3D.set m.j t3d
             pointNormals := m.pointNormals.set m.j
               ⟨triNormal t3d.p1 t3d.p2 t3d.p3, triNormal t3d.p1 t3d.p2 t3d.p3,
                 triNormal t3d.p1 t3d.p2 t3d.p3⟩
             j := m.j + 1 }
          (by intro k hk; simpa [hrej1] using hstepRoom k hk)
          (by intro k hk; simpa [hrej1] using hstepRoomN k hk) hres1
      simp only at hrj htake hrest hrestN
      refine ⟨r, ?_, ?_, ?_, ?_, ?_, ?_, ?_⟩
      · simp only [filterFrom, hstep, hr]
      · rw [acceptedTriangles_cons indexMap cloud t ts t3d ht, hrj]
        simp [hrej1]
        omega
      · simpa using hl3
      · simpa using hlN
      · rw [acceptedTriangles_cons indexMap cloud t ts t3d ht, htake, take_succ_set _ _ _ hj]
        simp [hrej1]
      · intro k hk
        have hjk : m.j ≠ k := by omega
        rw [hrest k hk]
        simp [List.getElem?_set_ne hjk]
      · intro k hk
        have hjk : m.j ≠ k := by omega
        rw [hrestN k hk]
        simp [List.getElem?_set_ne hjk]

/-- Buffers with room for every input triangle keep the write index inside them. -/
theorem room_of_cap (ts : List Triangle) (j cap : Nat) (hcap : j + ts.length ≤ cap) :
    ∀ k, k < ts.length →
      j + (acceptedTriangles indexMap cloud (ts.take k)).length < cap := by
  intro k hk
  have h1 := acceptedTriangles_length_le indexMap cloud (ts.take k)
  have h2 : (ts.take k).length ≤ k := by simp
  omega

end FilterLoop

/-! ## The point cloud: range filter, capacity, alignment, scaled coordinates -/

/-- C2: the pixel list built by `setupNewFrame` is, in raster-scan order, the list of the
pixels with `200 < d < 6000` cut after its first 32767 entries, each mapped to its scaled
coordinates; its length is the smaller of 32767 and the number of admissible pixels. -/
theorem buildCloud_points_range_cap (project : Int → Int → Nat → CameraParams → Point3f)
    (cam : CameraParams) (scale : ℚ) (depth : Mat) :
    (buildCloud project cam scale depth).points
        = (((rasterPixels depth).filter (admissible depth)).take 32767).map (scaledPoint scale) ∧
      (buildCloud project cam scale depth).points.length
        = min 32767 ((rasterPixels depth).filter (admissible depth)).length ∧
      (∀ p : Nat × Nat, admissible depth p = true ↔
        200 < depth.atU16 p.1 p.2 ∧ depth.atU16 p.1 p.2 < 6000) := by
  rw [buildCloud_eq]
  refine ⟨rfl, ?_, ?_⟩
  · simp [admittedPixels, admissiblePixels, shortMax]
  · intro p
    simp [admissible, minDepth, maxDepth]

/-- C6, as amended: `points` and `cloud` have the same length, and entry `k` of each comes from
the same admitted native pixel: `points[k]` is its scaled coordinate pair and `cloud[k]` is
the back-projection of `points[k]` with the depth of the grid at that native pixel. -/
theorem buildCloud_aligned (project : Int → Int → Nat → CameraParams → Point3f)
    (cam : CameraParams) (scale : ℚ) (depth : Mat) :
    (buildCloud project cam scale depth).points.length
        = (buildCloud project cam scale depth).cloud.length ∧
      (buildCloud project cam scale depth).points
        = (admittedPixels depth).map (scaledPoint scale) ∧
      (buildCloud project cam scale depth).cloud
        = (admittedPixels depth).map (fun p =>
            project (scaledPoint scale p).i (scaledPoint scale p).j (depth.atU16 p.1 p.2) cam) := by
  rw [buildCloud_eq]
  refine ⟨by simp, rfl, rfl⟩

/-- C6, counterexample: with scale 2 on the grid with depths 1000, 2000, 3000 the second point
is `(0, 2)` and its 3D point carries depth 2000, while the grid holds 3000 at `(0, 2)`. -/
theorem buildCloud_depth_at_point_counterexample :
    (buildCloud pinholeProject sampleCam 2 rampGrid).points[1]? = some ⟨0, 2⟩ ∧
      (buildCloud pinholeProject sampleCam 2 rampGrid).cloud[1]?
        = some (pinholeProject 0 2 2000 sampleCam) ∧
      rampGrid.atU16 0 2 = 3000 ∧
      (buildCloud pinholeProject sampleCam 2 rampGrid).cloud[1]?
        ≠ some (pinholeProject 0 2 (rampGrid.atU16 0 2) sampleCam) := by
  decide!

theorem wrapShort_of_range (n : Int) (h0 : 0 ≤ n) (h1 : n < 32768) : wrapShort n = n := by
  unfold wrapShort
  rw [Int.emod_eq_of_lt (by omega) (by omega)]
  omega

theorem toShort_eq_floor (x : ℚ) (h0 : 0 ≤ x) (h1 : x < 32768) : toShort x = ⌊x⌋ := by
  unfold toShort truncToInt
  rw [if_pos h0]
  apply wrapShort_of_range
  · exact Int.floor_nonneg.mpr h0
  · have h2 : ((⌊x⌋ : Int) : ℚ) ≤ x := Int.floor_le x
    have h3 : ((⌊x⌋ : Int) : ℚ) < ((32768 : Int) : ℚ) := by
      push_cast
      exact lt_of_le_of_lt h2 h1
    exact_mod_cast h3

theorem mem_rasterPixels (depth : Mat) (p : Nat × Nat) :
    p ∈ rasterPixels depth ↔ p.1 < depth.rows ∧ p.2 < depth.cols := by
  obtain ⟨r, c⟩ := p
  simp [rasterPixels]

theorem mem_admittedPixels_raster (depth : Mat) (p : Nat × Nat) (h : p ∈ admittedPixels depth) :
    p.1 < depth.rows ∧ p.2 < depth.cols := by
  have h1 : p ∈ admissiblePixels depth := List.mem_of_mem_take h
  have h2 : p ∈ rasterPixels depth := List.mem_of_mem_filter h1
  exact (mem_rasterPixels depth p).mp h2

/-- C10, as amended: for a positive scale factor and `float` products within the range of
`short`, the `PointIJ` appended for the admitted pixel `(row, col)` is
`(floor (scale * row), floor (scale * col))`, where each product is the `float` product, that
is the exact product rounded to the nearest `float`: the coordinates are cut off toward zero,
not rounded to the nearest integer. -/
theorem buildCloud_points_floor (project : Int → Int → Nat → CameraParams → Point3f)
    (cam : CameraParams) (scale : ℚ) (depth : Mat) (hs : 0 < scale)
    (hr : ∀ p ∈ admittedPixels depth,
      roundF32 (scale * roundF32 ((p.1 : Int) : ℚ)) < 32768 ∧
        roundF32 (scale * roundF32 ((p.2 : Int) : ℚ)) < 32768) :
    (buildCloud project cam scale depth).points
      = (admittedPixels depth).map (flooredPoint scale) := by
  rw [buildCloud_eq]
  apply List.map_congr_left
  intro p hp
  obtain ⟨a1, b1⟩ := hr p hp
  have n1 : (0 : ℚ) ≤ ((p.1 : Int) : ℚ) := by exact_mod_cast Nat.zero_le p.1
  have n2 : (0 : ℚ) ≤ ((p.2 : Int) : ℚ) := by exact_mod_cast Nat.zero_le p.2
  have a0 : 0 ≤ roundF32 (scale * roundF32 ((p.1 : Int) : ℚ)) :=
    roundF32_nonneg _ (mul_nonneg hs.le (roundF32_nonneg _ n1))
  have b0 : 0 ≤ roundF32 (scale * roundF32 ((p.2 : Int) : ℚ)) :=
    roundF32_nonneg _ (mul_nonneg hs.le (roundF32_nonneg _ n2))
  simp only [scaledPoint, flooredPoint, f32mul, f32ofInt, toShort_eq_floor _ a0 a1,
    toShort_eq_floor _ b0 b1]

/-- C10, witness: the scale factor `1.6f` of a sensor of width 400 on the flat 2 by 2 grid. -/
theorem buildCloud_points_floor_witness :
    (buildCloud pinholeProject widePlayer.depthCam widePlayer.scale flatGrid).points
      = (admittedPixels flatGrid).map (flooredPoint widePlayer.scale) :=
  buildCloud_points_floor pinholeProject widePlayer.depthCam widePlayer.scale flatGrid
    (by decide!) (by decide!)

/-- C10, counterexample: for a sensor of width 400 `init` computes the scale `1.6f`; the
pixel `(1, 1)` is stored as `(1, 1)`, while rounding `1.6f` to the nearest integer gives 2. -/
theorem buildCloud_points_not_rounded :
    widePlayer.scale = 13421773 / 8388608 ∧
      (admittedPixels flatGrid)[3]? = some (1, 1) ∧
      (buildCloud pinholeProject widePlayer.depthCam widePlayer.scale flatGrid).points[3]?
        = some ⟨1, 1⟩ ∧
      roundedPoint widePlayer.scale (1, 1) = ⟨2, 2⟩ ∧
      (buildCloud pinholeProject widePlayer.depthCam widePlayer.scale flatGrid).points
        ≠ (admittedPixels flatGrid).map (roundedPoint widePlayer.scale) := by
  decide!

/-- The `float` product is cut off after it was rounded: `0.7f * 10` is stored as 7, where the
exact product of `0.7f` and 10 has floor 6; with the scale that `init` computes for a sensor
of width 410, column 123 is stored as 192, where the exact product has floor 191. -/
theorem scaledPoint_float_product :
    scaledPoint (roundF32 (7 / 10)) (10, 10) = ⟨7, 7⟩ ∧
      flooredPoint (roundF32 (7 / 10)) (10, 10) = ⟨7, 7⟩ ∧
      ⌊roundF32 (7 / 10) * 10⌋ = 6 ∧
      scaledPoint (PlayerImpl.init 4 ⟨500, 205, 150, 410, 300⟩).scale (123, 123) = ⟨192, 192⟩ ∧
      ⌊(PlayerImpl.init 4 ⟨500, 205, 150, 410, 300⟩).scale * 123⌋ = 191 := by
  decide!

/-! ## The mesh filter: compaction, buffer frame, threshold boundary -/

/-- C7, as amended: every entry of `triangles3D` at an index strictly greater than the
resulting `num3DTriangles` holds after the loop the value it held before, and so does every
entry of `pointNormals` at an index from `num3DTriangles` on; both buffers keep their size. -/
theorem filterLoop_frame (triNormal : Point3f → Point3f → Point3f → Point3f)
    (indexMap : List Int) (cloud : List Point3f) (triangles : List Triangle)
    (buf nrm : List Triangle3D)
    (hcap : triangles.length ≤ buf.length) (hcapN : triangles.length ≤ nrm.length)
    (hres : ∀ t ∈ triangles, (resolve indexMap cloud t).isSome = true) :
    ∃ r, filterLoop triNormal indexMap cloud triangles buf nrm = some r ∧
      r.triangles3D.length = buf.length ∧ r.pointNormals.length = nrm.length ∧
      (∀ k, r.j < k → r.triangles3D[k]? = buf[k]?) ∧
      (∀ k, r.j ≤ k → r.pointNormals[k]? = nrm[k]?) := by
  obtain ⟨r, hr, _, hl3, hlN, _, hrest, hrestN⟩ :=
    filterFrom_spec triNormal indexMap cloud triangles ⟨buf, nrm, 0⟩
      (room_of_cap indexMap cloud triangles 0 buf.length (by simpa using hcap))
      (room_of_cap indexMap cloud triangles 0 nrm.length (by simpa using hcapN)) hres
  exact ⟨r, hr, hl3, hlN, hrest, hrestN⟩

/-- C7, witness: the sample input with one rejected triangle between two accepted ones. -/
theorem filterLoop_frame_witness :
    ∃ r, filterLoop crossNormal sampleIndexMap sampleCloud sampleTriangles sampleBuf sampleBuf
        = some r ∧
      r.triangles3D.length = sampleBuf.length ∧ r.pointNormals.length = sampleBuf.length ∧
      (∀ k, r.j < k → r.triangles3D[k]? = sampleBuf[k]?) ∧
      (∀ k, r.j ≤ k → r.pointNormals[k]? = sampleBuf[k]?) :=
  filterLoop_frame crossNormal sampleIndexMap sampleCloud sampleTriangles sampleBuf
    sampleBuf (by decide) (by decide) (by decide)

/-- C7, counterexample: a single rejected triangle leaves `num3DTriangles = 0` and is found
in `triangles3D[0]`, which held the default triangle before the loop. -/
theorem filterLoop_writes_rejected :
    resolve sampleIndexMap sampleCloud ⟨1, 2, 3⟩ = some farTriangle ∧
      rejected farTriangle = true ∧
      (filterLoop crossNormal sampleIndexMap sampleCloud [⟨1, 2, 3⟩] sampleBuf sampleBuf).map
          (fun r => (r.j, r.triangles3D[0]?)) = some (0, some farTriangle) ∧
      sampleBuf[0]? = some zeroTriangle ∧
      farTriangle ≠ zeroTriangle := by
  decide!

theorem filterLoop_single (triNormal : Point3f → Point3f → Point3f → Point3f)
    (indexMap : List Int) (cloud : List Point3f) (t : Triangle) (t3d : Triangle3D)
    (buf nrm : List Triangle3D) (hb : 0 < buf.length) (hn : 0 < nrm.length)
    (hres : resolve indexMap cloud t = some t3d) :
    (filterLoop triNormal indexMap cloud [t] buf nrm).map (fun r => r.j)
      = some (if rejected t3d then 0 else 1) := by
  have hres1 : ∀ u ∈ [t], (resolve indexMap cloud u).isSome = true := by
    intro u hu
    rw [List.mem_singleton.mp hu, hres]
    rfl
  obtain ⟨r, hr, hrj, _, _, _, _, _⟩ :=
    filterFrom_spec triNormal indexMap cloud [t] ⟨buf, nrm, 0⟩
      (room_of_cap indexMap cloud [t] 0 buf.length (by simpa using hb))
      (room_of_cap indexMap cloud [t] 0 nrm.length (by simpa using hn)) hres1
  have hr1 : filterLoop triNormal indexMap cloud [t] buf nrm = some r := hr
  rw [hr1, Option.map_some', hrj, acceptedTriangles_cons indexMap cloud t [] t3d hres]
  cases rejected t3d <;> simp [acceptedTriangles_nil]

/-- C8, as amended: a triangle whose `z` spread is within `zThreshold` is counted in
`num3DTriangles` when its longest edge is at most `sideLengthThreshold`, equality included,
and is not counted when its longest edge is strictly longer than `sideLengthThreshold`. The
edge lengths and the threshold are the `float` values the code compares. -/
theorem filterLoop_boundary (triNormal : Point3f → Point3f → Point3f → Point3f)
    (indexMap : List Int) (cloud : List Point3f) (t : Triangle)
    (buf nrm : List Triangle3D) (hb : 0 < buf.length) (hn : 0 < nrm.length)
    (hidx : triangleInRange indexMap cloud t)
    (hz : specZSpread (specResolve indexMap cloud t) ≤ zThreshold) :
    (max (max (specEdgeLength (specVertex indexMap cloud t.p1) (specVertex indexMap cloud t.p2))
              (specEdgeLength (specVertex indexMap cloud t.p2) (specVertex indexMap cloud t.p3)))
          (specEdgeLength (specVertex indexMap cloud t.p3) (specVertex indexMap cloud t.p1))
          ≤ sideLengthThreshold →
        (filterLoop triNormal indexMap cloud [t] buf nrm).map (fun r => r.j) = some 1) ∧
      (sideLengthThreshold <
          max (max (specEdgeLength (specVertex indexMap cloud t.p1)
                      (specVertex indexMap cloud t.p2))
                (specEdgeLength (specVertex indexMap cloud t.p2)
                      (specVertex indexMap cloud t.p3)))
            (specEdgeLength (specVertex indexMap cloud t.p3) (specVertex indexMap cloud t.p1)) →
        (filterLoop triNormal indexMap cloud [t] buf nrm).map (fun r => r.j) = some 0) := by
  rw [filterLoop_single triNormal indexMap cloud t _ buf nrm hb hn
    (resolve_eq_spec indexMap cloud t hidx), rejected_eq_spec]
  have hacc : specAccepted (specResolve indexMap cloud t) ↔
      max (max (specEdgeLength (specVertex indexMap cloud t.p1) (specVertex indexMap cloud t.p2))
              (specEdgeLength (specVertex indexMap cloud t.p2) (specVertex indexMap cloud t.p3)))
          (specEdgeLength (specVertex indexMap cloud t.p3) (specVertex indexMap cloud t.p1))
          ≤ sideLengthThreshold := by
    rw [max_le_iff, max_le_iff]
    unfold specAccepted
    constructor
    · rintro ⟨_, h1, h2, h3⟩
      exact ⟨⟨h1, h2⟩, h3⟩
    · rintro ⟨⟨h1, h2⟩, h3⟩
      exact ⟨hz, h1, h2, h3⟩
  constructor
  · intro hmax
    simp [hacc.mpr hmax]
  · intro hmax
    have hno : ¬ specAccepted (specResolve indexMap cloud t) :=
      fun h => absurd (hacc.mp h) (not_le.mpr hmax)
    simp [hno]

/-- C8, witness: the triangle over `boundaryCloud`, whose longest edge has length
`sideLengthThreshold` exactly. -/
theorem filterLoop_boundary_witness :
    (max (max (specEdgeLength (specVertex [0, 1, 2] boundaryCloud 0)
                (specVertex [0, 1, 2] boundaryCloud 1))
              (specEdgeLength (specVertex [0, 1, 2] boundaryCloud 1)
                (specVertex [0, 1, 2] boundaryCloud 2)))
          (specEdgeLength (specVertex [0, 1, 2] boundaryCloud 2)
            (specVertex [0, 1, 2] boundaryCloud 0))
          ≤ sideLengthThreshold →
        (filterLoop crossNormal [0, 1, 2] boundaryCloud [⟨0, 1, 2⟩] sampleBuf sampleBuf).map
          (fun r => r.j) = some 1) ∧
      (sideLengthThreshold <
          max (max (specEdgeLength (specVertex [0, 1, 2] boundaryCloud 0)
                      (specVertex [0, 1, 2] boundaryCloud 1))
                (specEdgeLength (specVertex [0, 1, 2] boundaryCloud 1)
                      (specVertex [0, 1, 2] boundaryCloud 2)))
            (specEdgeLength (specVertex [0, 1, 2] boundaryCloud 2)
              (specVertex [0, 1, 2] boundaryCloud 0)) →
        (filterLoop crossNormal [0, 1, 2] boundaryCloud [⟨0, 1, 2⟩] sampleBuf sampleBuf).map
          (fun r => r.j) = some 0) :=
  filterLoop_boundary crossNormal [0, 1, 2] boundaryCloud ⟨0, 1, 2⟩
    sampleBuf sampleBuf (by decide) (by decide) (by decide!) (by decide!)

/-- C8, counterexample: the edge from the first to the second point of `boundaryTriangle` is
the vector `(0.15f, 0, 0)`, so it has length `sideLengthThreshold` exactly, also as the code
computes it; the other two edges are shorter and the `z` spread is zero. The filter counts
the triangle: `num3DTriangles = 1`. The triangle with every edge shorter is counted too. -/
theorem filterLoop_boundary_counted :
    resolve [0, 1, 2] boundaryCloud ⟨0, 1, 2⟩ = some boundaryTriangle ∧
      specZSpread boundaryTriangle = 0 ∧
      boundaryTriangle.p2 - boundaryTriangle.p1 = ⟨sideLengthThreshold, 0, 0⟩ ∧
      specEdgeLength boundaryTriangle.p1 boundaryTriangle.p2 = sideLengthThreshold ∧
      specEdgeLength boundaryTriangle.p2 boundaryTriangle.p3 < sideLengthThreshold ∧
      specEdgeLength boundaryTriangle.p3 boundaryTriangle.p1 < sideLengthThreshold ∧
      (filterLoop crossNormal [0, 1, 2] boundaryCloud [⟨0, 1, 2⟩] sampleBuf sampleBuf).map
          (fun r => r.j) = some 1 ∧
      (filterLoop crossNormal [0, 1, 2] shorterCloud [⟨0, 1, 2⟩] sampleBuf sampleBuf).map
          (fun r => r.j) = some 1 := by
  decide!

/-! ## Lemmas on `setupNewFrame` -/

theorem buildCloud_lengths (project : Int → Int → Nat → CameraParams → Point3f)
    (cam : CameraParams) (scale : ℚ) (depth : Mat) :
    (buildCloud project cam scale depth).cloud.length
      = (buildCloud project cam scale depth).points.length := by
  rw [buildCloud_eq]
  simp

/-- Under the contract of the triangulator `setupNewFrame` returns, and its effect on the
fields of the player is as listed. -/
theorem setupNewFrame_some (E : Externals) (s : PlayerImpl) (frame : Frame) (cap : Nat)
    (hcur : s.currentFrame = some frame) (hfit : TriangulationFits E cap)
    (h3 : cap ≤ s.triangles3D.length) (hN : cap ≤ s.pointNormals.length) :
    ∃ r, setupNewFrame E s = some r ∧
      r.triangles3D.length = s.triangles3D.length ∧
      r.pointNormals.length = s.pointNormals.length ∧
      r.depthCam = s.depthCam ∧ r.scale = s.scale ∧
      r.meanPointCalculated = true ∧
      r.modelCenter = (if s.meanPointCalculated then s.modelCenter
        else E.meanPoint (buildCloud E.project2dPointTo3d s.depthCam s.scale frame.depth).cloud) ∧
      r.cloud = (buildCloud E.project2dPointTo3d s.depthCam s.scale frame.depth).cloud := by
  obtain ⟨hlen, hres⟩ :=
    hfit (buildCloud E.project2dPointTo3d s.depthCam s.scale frame.depth).points
      (buildCloud E.project2dPointTo3d s.depthCam s.scale frame.depth).cloud
      (buildCloud_lengths _ _ _ _)
  obtain ⟨m, hm0, _, hl3, hlN, _, _, _⟩ :=
    filterFrom_spec E.triNormal
      (E.delaunay (buildCloud E.project2dPointTo3d s.depthCam s.scale frame.depth).points).2
      (buildCloud E.project2dPointTo3d s.depthCam s.scale frame.depth).cloud
      (E.delaunay (buildCloud E.project2dPointTo3d s.depthCam s.scale frame.depth).points).1
      ⟨s.triangles3D, s.pointNormals, 0⟩
      (room_of_cap _ _ _ 0 s.triangles3D.length (by simpa using le_trans hlen h3))
      (room_of_cap _ _ _ 0 s.pointNormals.length (by simpa using le_trans hlen hN)) hres
  have hm : filterLoop E.triNormal
      (E.delaunay (buildCloud E.project2dPointTo3d s.depthCam s.scale frame.depth).points).2
      (buildCloud E.project2dPointTo3d s.depthCam s.scale frame.depth).cloud
      (E.delaunay (buildCloud E.project2dPointTo3d s.depthCam s.scale frame.depth).points).1
      s.triangles3D s.pointNormals = some m := hm0
  simp only at hl3 hlN
  unfold setupNewFrame
  simp only [hcur, hm]
  cases hmp : s.meanPointCalculated <;> simp [hl3, hlN]

/-- When `setupNewFrame` returns, the playback epoch is the one it was called with. -/
theorem setupNewFrame_epoch (E : Externals) (s r : PlayerImpl)
    (h : setupNewFrame E s = some r) :
    r.firstFrameTimestamp = s.firstFrameTimestamp ∧ r.playbackStarted = s.playbackStarted := by
  unfold setupNewFrame at h
  cases hcur : s.currentFrame with
  | none => simp [hcur] at h
  | some frame =>
    simp only [hcur] at h
    cases hm : filterLoop E.triNormal
        (E.delaunay (buildCloud E.project2dPointTo3d s.depthCam s.scale frame.depth).points).2
        (buildCloud E.project2dPointTo3d s.depthCam s.scale frame.depth).cloud
        (E.delaunay (buildCloud E.project2dPointTo3d s.depthCam s.scale frame.depth).points).1
        s.triangles3D s.pointNormals with
    | none => simp [hm] at h
    | some m =>
      simp only [hm, Option.some.injEq] at h
      subst h
      cases s.meanPointCalculated <;> simp

theorem processFrames_frozen (E : Externals) (cap : Nat) (hfit : TriangulationFits E cap)
    (frames : List Frame) (s : PlayerImpl) (hset : s.meanPointCalculated = true)
    (h3 : cap ≤ s.triangles3D.length) (hN : cap ≤ s.pointNormals.length) :
    ∃ r, processFrames E s frames = some r ∧ r.meanPointCalculated = true ∧
      r.modelCenter = s.modelCenter := by
  induction frames generalizing s with
  | nil => exact ⟨s, rfl, hset, rfl⟩
  | cons frame rest ih =>
    obtain ⟨s1, hs1, hl3, hlN, _, _, hmp, hmc, _⟩ :=
      setupNewFrame_some E { s with currentFrame := some frame } frame cap rfl hfit h3 hN
    obtain ⟨r, hr, hrm, hrc⟩ := ih s1 hmp (by rw [hl3]; exact h3) (by rw [hlN]; exact hN)
    refine ⟨r, ?_, hrm, ?_⟩
    · simp only [processFrames, processFrame, hs1, hr]
    · rw [hrc, hmc]
      simp [hset]

/-! ## The model center -/

/-- C9, as amended: from a state in which the model center is not yet calculated, the first
frame processed by `setupNewFrame` sets it to `meanPoint` of the cloud of that frame, whether
or not that cloud is empty, and after any further frames it still has that value. -/
theorem modelCenter_first_frame (E : Externals) (cap : Nat) (s : PlayerImpl) (frame : Frame)
    (rest : List Frame) (hfit : TriangulationFits E cap)
    (h3 : cap ≤ s.triangles3D.length) (hN : cap ≤ s.pointNormals.length)
    (hinit : s.meanPointCalculated = false) :
    ∃ s1 r, processFrame E s frame = some s1 ∧
      processFrames E s (frame :: rest) = some r ∧
      s1.meanPointCalculated = true ∧
      s1.modelCenter
        = E.meanPoint (buildCloud E.project2dPointTo3d s.depthCam s.scale frame.depth).cloud ∧
      r.meanPointCalculated = true ∧
      r.modelCenter = s1.modelCenter := by
  obtain ⟨s1, hs1, hl3, hlN, _, _, hmp, hmc, _⟩ :=
    setupNewFrame_some E { s with currentFrame := some frame } frame cap rfl hfit h3 hN
  obtain ⟨r, hr, hrm, hrc⟩ :=
    processFrames_frozen E cap hfit rest s1 hmp (by rw [hl3]; exact h3) (by rw [hlN]; exact hN)
  refine ⟨s1, r, hs1, ?_, hmp, ?_, hrm, hrc⟩
  · simp only [processFrames, processFrame, hs1, hr]
  · rw [hmc]
    simp [hinit]

/-- The stand-in triangulator keeps within a buffer of one triangle. -/
theorem firstThree_fits : TriangulationFits sampleExternals 1 := by
  intro pts cloud hlen
  constructor
  · show (firstThree pts).1.length ≤ 1
    unfold firstThree
    split <;> simp
  · intro t ht
    have ht1 : t ∈ (firstThree pts).1 := ht
    show (resolve (firstThree pts).2 cloud t).isSome = true
    unfold firstThree at ht1 ⊢
    by_cases h : 3 ≤ pts.length
    · simp only [h, if_true, List.mem_singleton] at ht1
      subst ht1
      have h0 : 0 < pts.length := by omega
      have h1 : 1 < pts.length := by omega
      have h2 : 2 < pts.length := by omega
      have c0 : 0 < cloud.length := by omega
      have c1 : 1 < cloud.length := by omega
      have c2 : 2 < cloud.length := by omega
      simp [resolve, vertexAt, vecAt, List.getElem?_range, h0, h1, h2,
        List.getElem?_eq_getElem, c0, c1, c2]
    · simp [h] at ht1

/-- C9, witness: a frame with an empty cloud followed by a frame with four points. -/
theorem modelCenter_first_frame_witness :
    ∃ s1 r, processFrame sampleExternals samplePlayer voidFrame = some s1 ∧
      processFrames sampleExternals samplePlayer [voidFrame, flatFrame] = some r ∧
      s1.meanPointCalculated = true ∧
      s1.modelCenter
        = sampleExternals.meanPoint (buildCloud sampleExternals.project2dPointTo3d
            samplePlayer.depthCam samplePlayer.scale voidFrame.depth).cloud ∧
      r.meanPointCalculated = true ∧
      r.modelCenter = s1.modelCenter :=
  modelCenter_first_frame sampleExternals 1 samplePlayer voidFrame [flatFrame] firstThree_fits
    (by decide) (by decide) rfl

/-- C9, counterexample: the first frame has an empty cloud and yet marks the model center as
calculated; the second frame has four points, and after it the model center is still
`meanPoint` of the empty cloud, not the centroid of the four points. -/
theorem modelCenter_set_by_empty_cloud :
    (processFrame sampleExternals samplePlayer voidFrame).map
        (fun r => (r.cloud, r.meanPointCalculated)) = some ([], true) ∧
      (processFrames sampleExternals samplePlayer [voidFrame, flatFrame]).map
        (fun r => (r.cloud, r.modelCenter)) = some (flatCloud, centroid []) ∧
      flatCloud.length = 4 ∧
      centroid flatCloud ≠ centroid [] := by
  decide!

/-! ## Playback: epoch reset and pacing gate -/

/-- C5: in `loopBody`, with a frame held after the queue was consulted, the epoch check runs
before the gate, which is evaluated on its result; if the number of the frame is less than
`lastPlayedFrame` the check sets `firstFrameTimestamp` to the timestamp of the frame and
`playbackStarted` to the clock reading, otherwise it changes neither, and the values are the
ones found in the state after the iteration. -/
theorem loopBody_restart_before_gate (E : Externals) (s : PlayerImpl) (popped : Option Frame)
    (now : Int) (frame : Frame) (h : (acquireFrame s popped).currentFrame = some frame) :
    loopBody E s popped now
        = gateAndDraw E (restartCheck (acquireFrame s popped) frame now) now ∧
      (frame.frameNumber < s.lastPlayedFrame →
        (restartCheck (acquireFrame s popped) frame now).firstFrameTimestamp = frame.dTimestamp ∧
        (restartCheck (acquireFrame s popped) frame now).playbackStarted = now) ∧
      (¬ frame.frameNumber < s.lastPlayedFrame →
        (restartCheck (acquireFrame s popped) frame now).firstFrameTimestamp
            = s.firstFrameTimestamp ∧
        (restartCheck (acquireFrame s popped) frame now).playbackStarted = s.playbackStarted) ∧
      (∀ r, loopBody E s popped now = some r →
        r.firstFrameTimestamp
            = (restartCheck (acquireFrame s popped) frame now).firstFrameTimestamp ∧
        r.playbackStarted = (restartCheck (acquireFrame s popped) frame now).playbackStarted) := by
  have hlast : (acquireFrame s popped).lastPlayedFrame = s.lastPlayedFrame := by
    unfold acquireFrame
    cases s.currentFrame <;> rfl
  have hfirst : (acquireFrame s popped).firstFrameTimestamp = s.firstFrameTimestamp := by
    unfold acquireFrame
    cases s.currentFrame <;> rfl
  have hstart : (acquireFrame s popped).playbackStarted = s.playbackStarted := by
    unfold acquireFrame
    cases s.currentFrame <;> rfl
  have hloop : loopBody E s popped now
      = gateAndDraw E (restartCheck (acquireFrame s popped) frame now) now := by
    unfold loopBody
    simp only [h]
  refine ⟨hloop, ?_, ?_, ?_⟩
  · intro hlt
    unfold restartCheck
    rw [hlast, if_pos hlt]
    exact ⟨rfl, rfl⟩
  · intro hge
    unfold restartCheck
    rw [hlast, if_neg hge]
    exact ⟨hfirst, hstart⟩
  · intro r hr
    rw [hloop] at hr
    unfold gateAndDraw at hr
    have hgate : ∀ u : PlayerImpl,
        (canPlayCurrentFrame u now).2.firstFrameTimestamp = u.firstFrameTimestamp ∧
        (canPlayCurrentFrame u now).2.playbackStarted = u.playbackStarted := by
      intro u
      unfold canPlayCurrentFrame
      cases u.currentFrame with
      | none => exact ⟨rfl, rfl⟩
      | some _ => cases u.once <;> exact ⟨rfl, rfl⟩
    obtain ⟨g1, g2⟩ := hgate (restartCheck (acquireFrame s popped) frame now)
    by_cases hc : (canPlayCurrentFrame (restartCheck (acquireFrame s popped) frame now) now).1
        = true
    · simp only [hc, if_true, Option.map_eq_some'] at hr
      obtain ⟨u, hu, hdraw⟩ := hr
      obtain ⟨e1, e2⟩ := setupNewFrame_epoch E _ u hu
      subst hdraw
      exact ⟨by rw [← g1, ← e1]; rfl, by rw [← g2, ← e2]; rfl⟩
    · have hc1 : (canPlayCurrentFrame (restartCheck (acquireFrame s popped) frame now) now).1
          = false := by simpa using hc
      simp only [hc1, Bool.false_eq_true, if_false, Option.some.injEq] at hr
      subst hr
      exact ⟨by rw [← g1]; rfl, by rw [← g2]; rfl⟩

/-- C5, witness: a player that last played frame 4 and holds nothing receives frame 1 from
the queue. -/
theorem loopBody_restart_before_gate_witness :
    loopBody sampleExternals { samplePlayer with lastPlayedFrame := 4 } (some flatFrame) 7000
        = gateAndDraw sampleExternals
            (restartCheck (acquireFrame { samplePlayer with lastPlayedFrame := 4 }
              (some flatFrame)) flatFrame 7000) 7000 ∧
      (flatFrame.frameNumber < 4 →
        (restartCheck (acquireFrame { samplePlayer with lastPlayedFrame := 4 }
          (some flatFrame)) flatFrame 7000).firstFrameTimestamp = flatFrame.dTimestamp ∧
        (restartCheck (acquireFrame { samplePlayer with lastPlayedFrame := 4 }
          (some flatFrame)) flatFrame 7000).playbackStarted = 7000) ∧
      (¬ flatFrame.frameNumber < 4 →
        (restartCheck (acquireFrame { samplePlayer with lastPlayedFrame := 4 }
          (some flatFrame)) flatFrame 7000).firstFrameTimestamp
            = samplePlayer.firstFrameTimestamp ∧
        (restartCheck (acquireFrame { samplePlayer with lastPlayedFrame := 4 }
          (some flatFrame)) flatFrame 7000).playbackStarted = samplePlayer.playbackStarted) ∧
      (∀ r, loopBody sampleExternals { samplePlayer with lastPlayedFrame := 4 }
          (some flatFrame) 7000 = some r →
        r.firstFrameTimestamp
            = (restartCheck (acquireFrame { samplePlayer with lastPlayedFrame := 4 }
                (some flatFrame)) flatFrame 7000).firstFrameTimestamp ∧
        r.playbackStarted
            = (restartCheck (acquireFrame { samplePlayer with lastPlayedFrame := 4 }
                (some flatFrame)) flatFrame 7000).playbackStarted) :=
  loopBody_restart_before_gate sampleExternals { samplePlayer with lastPlayedFrame := 4 }
    (some flatFrame) 7000 flatFrame rfl

/-- With a frame held, the result of `canPlayCurrentFrame` is the negation of `once`, and
`once` is set afterwards; the clock reading plays no part. -/
theorem canPlayCurrentFrame_held (s : PlayerImpl) (frame : Frame) (now : Int)
    (h : s.currentFrame = some frame) :
    (canPlayCurrentFrame s now).1 = !s.once ∧ (canPlayCurrentFrame s now).2.once = true := by
  unfold canPlayCurrentFrame
  rw [h]
  cases hs : s.once <;> simp [hs]

/-- C3, at the failing input: a frame with offset 1000 is held, 5000 microseconds have passed
since `playbackStarted`, so the pacing condition is reached, and `canPlayCurrentFrame`
returns `false` because `once` is already set; the unreachable tail would return `true`.
On a first call, 10 microseconds after `playbackStarted`, the result for that frame is `true`
although the pacing condition is not reached. -/
theorem canPlayCurrentFrame_ignores_clock :
    heldPlayer.currentFrame = some ⟨5, 1000, flatGrid⟩ ∧
      heldPlayer.once = true ∧
      pacingReached heldPlayer ⟨5, 1000, flatGrid⟩ 5000 ∧
      pacingTail heldPlayer ⟨5, 1000, flatGrid⟩ 5000 = true ∧
      (canPlayCurrentFrame heldPlayer 5000).1 = false ∧
      ¬ pacingReached { heldPlayer with once := false } ⟨5, 1000, flatGrid⟩ 10 ∧
      (canPlayCurrentFrame { heldPlayer with once := false } 10).1 = true := by
  refine ⟨rfl, rfl, ?_, by decide, by decide, ?_, by decide⟩
  · unfold pacingReached
    decide
  · unfold pacingReached
    decide

/-! ## Playback: pacing over a run -/

/-- When `setupNewFrame` returns, the flag `once` is the one it was called with. -/
theorem setupNewFrame_once (E : Externals) (s r : PlayerImpl)
    (h : setupNewFrame E s = some r) : r.once = s.once := by
  unfold setupNewFrame at h
  cases hcur : s.currentFrame with
  | none => simp [hcur] at h
  | some frame =>
    simp only [hcur] at h
    cases hm : filterLoop E.triNormal
        (E.delaunay (buildCloud E.project2dPointTo3d s.depthCam s.scale frame.depth).points).2
        (buildCloud E.project2dPointTo3d s.depthCam s.scale frame.depth).cloud
        (E.delaunay (buildCloud E.project2dPointTo3d s.depthCam s.scale frame.depth).points).1
        s.triangles3D s.pointNormals with
    | none => simp [hm] at h
    | some m =>
      simp only [hm, Option.some.injEq] at h
      subst h
      cases s.meanPointCalculated <;> simp

theorem fresh_init (cap : Nat) (cam : CameraParams) : Fresh (PlayerImpl.init cap cam) :=
  Or.inr ⟨rfl, rfl⟩

theorem fresh_loopBody (E : Externals) (s r : PlayerImpl) (popped : Option Frame) (now : Int)
    (hs : Fresh s) (h : loopBody E s popped now = some r) : Fresh r := by
  unfold loopBody at h
  cases hcur : (acquireFrame s popped).currentFrame with
  | none =>
    simp only [hcur, Option.some.injEq] at h
    subst h
    rcases hs with h1 | ⟨h1, h2⟩
    · left
      unfold acquireFrame
      cases s.currentFrame <;> exact h1
    · right
      refine ⟨hcur, ?_⟩
      unfold acquireFrame
      rw [h1]
      exact h2
  | some frame =>
    simp only [hcur] at h
    left
    unfold gateAndDraw at h
    have hg := canPlayCurrentFrame_held (restartCheck (acquireFrame s popped) frame now) frame now
      (by
        unfold restartCheck
        split <;> exact hcur)
    by_cases hc : (canPlayCurrentFrame (restartCheck (acquireFrame s popped) frame now) now).1
        = true
    · simp only [hc, if_true, Option.map_eq_some'] at h
      obtain ⟨u, hu, hdraw⟩ := h
      subst hdraw
      have := setupNewFrame_once E _ u hu
      show u.once = true
      rw [this]
      exact hg.2
    · have hc1 : (canPlayCurrentFrame (restartCheck (acquireFrame s popped) frame now) now).1
          = false := by simpa using hc
      simp only [hc1, Bool.false_eq_true, if_false, Option.some.injEq] at h
      subst h
      exact hg.2

theorem fresh_runLoop (E : Externals) (inputs : List (Option Frame × Int)) (s r : PlayerImpl)
    (hs : Fresh s) (h : runLoop E s inputs = some r) : Fresh r := by
  induction inputs generalizing s with
  | nil =>
    simp only [runLoop, Option.some.injEq] at h
    subst h
    exact hs
  | cons inp rest ih =>
    unfold runLoop at h
    cases hstep : loopBody E s inp.1 inp.2 with
    | none => simp [hstep] at h
    | some s1 =>
      simp only [hstep] at h
      exact ih s1 (fresh_loopBody E s s1 inp.1 inp.2 hs hstep) h

/-- The gate changes nothing but `once`. -/
theorem canPlayCurrentFrame_fields (u : PlayerImpl) (now : Int) :
    (canPlayCurrentFrame u now).2.firstFrameTimestamp = u.firstFrameTimestamp ∧
      (canPlayCurrentFrame u now).2.playbackStarted = u.playbackStarted ∧
      (canPlayCurrentFrame u now).2.currentFrame = u.currentFrame := by
  unfold canPlayCurrentFrame
  cases hcur : u.currentFrame with
  | none => exact ⟨rfl, rfl, hcur.symm ▸ rfl⟩
  | some _ => cases u.once <;> exact ⟨rfl, rfl, by simp [hcur]⟩

/-- C4: in every run of `loopBody` iterations from the initial state, when an iteration
advances a frame to processing, a frame whose number is below the initial value
`2147483647` of `lastPlayedFrame`, then `setupNewFrame` is invoked on a state that holds this
frame and whose epoch was reset in this iteration, so that at the clock reading of the
iteration and at every later one the time elapsed since `playbackStarted` is at least the
`dTimestamp` of the frame minus `firstFrameTimestamp`. -/
theorem loopBody_paced (E : Externals) (cap : Nat) (cam : CameraParams)
    (pre : List (Option Frame × Int)) (popped : Option Frame) (now : Int)
    (s s3 : PlayerImpl) (frame : Frame)
    (hrun : runLoop E (PlayerImpl.init cap cam) pre = some s)
    (hadv : advancedFrame s popped now = some (s3, frame))
    (hnum : frame.frameNumber < 2147483647) :
    loopBody E s popped now = (setupNewFrame E s3).map draw ∧
      s3.currentFrame = some frame ∧
      s3.playbackStarted = now ∧ s3.firstFrameTimestamp = frame.dTimestamp ∧
      (∀ t, now ≤ t → t - s3.playbackStarted ≥ frame.dTimestamp - s3.firstFrameTimestamp) := by
  have hfresh := fresh_runLoop E pre _ s (fresh_init cap cam) hrun
  unfold advancedFrame at hadv
  cases hcur : (acquireFrame s popped).currentFrame with
  | none => simp [hcur] at hadv
  | some f =>
    simp only [hcur] at hadv
    have hcurR : (restartCheck (acquireFrame s popped) f now).currentFrame = some f := by
      unfold restartCheck
      split <;> exact hcur
    have hg := canPlayCurrentFrame_held (restartCheck (acquireFrame s popped) f now) f now hcurR
    by_cases hc : (canPlayCurrentFrame (restartCheck (acquireFrame s popped) f now) now).1 = true
    · simp only [hc, if_true, Option.some.injEq, Prod.mk.injEq] at hadv
      obtain ⟨h3, hf⟩ := hadv
      subst hf
      have honceR : (restartCheck (acquireFrame s popped) f now).once = false := by
        have := hg.1
        rw [hc] at this
        cases ho : (restartCheck (acquireFrame s popped) f now).once
        · rfl
        · rw [ho] at this
          simp at this
      have honce : s.once = false := by
        have e : (restartCheck (acquireFrame s popped) f now).once = s.once := by
          unfold restartCheck acquireFrame
          split <;> cases s.currentFrame <;> rfl
        rw [← e]
        exact honceR
      have hidle : s.currentFrame = none ∧ s.lastPlayedFrame = intMax := by
        rcases hfresh with h1 | h1
        · rw [honce] at h1
          exact absurd h1 (by simp)
        · exact h1
      have hlast : (acquireFrame s popped).lastPlayedFrame = 2147483647 := by
        unfold acquireFrame
        rw [hidle.1]
        exact hidle.2
      have hlt : f.frameNumber < (acquireFrame s popped).lastPlayedFrame := by
        rw [hlast]
        exact hnum
      have hstartR : (restartCheck (acquireFrame s popped) f now).playbackStarted = now := by
        unfold restartCheck
        rw [if_pos hlt]
      have hfirstR : (restartCheck (acquireFrame s popped) f now).firstFrameTimestamp
          = f.dTimestamp := by
        unfold restartCheck
        rw [if_pos hlt]
      obtain ⟨g1, g2, g3⟩ :=
        canPlayCurrentFrame_fields (restartCheck (acquireFrame s popped) f now) now
      have hloop : loopBody E s popped now = (setupNewFrame E s3).map draw := by
        unfold loopBody
        simp only [hcur]
        unfold gateAndDraw
        simp only [hc, if_true, h3]
      have hstart : s3.playbackStarted = now := by
        rw [← h3, g2, hstartR]
      have hfirst : s3.firstFrameTimestamp = f.dTimestamp := by
        rw [← h3, g1, hfirstR]
      refine ⟨hloop, ?_, hstart, hfirst, ?_⟩
      · rw [← h3, g3]
        exact hcurR
      · intro t ht
        rw [hstart, hfirst]
        omega
    · have hc1 : (canPlayCurrentFrame (restartCheck (acquireFrame s popped) f now) now).1
          = false := by simpa using hc
      simp [hc1] at hadv

/-- C4, witness: from the initial state an iteration finds the queue empty at time 100, and
the next one receives frame 1 at time 250 and advances it. -/
theorem loopBody_paced_witness :
    loopBody sampleExternals (draw samplePlayer) (some flatFrame) 250
        = (setupNewFrame sampleExternals
            (canPlayCurrentFrame (restartCheck (acquireFrame (draw samplePlayer)
              (some flatFrame)) flatFrame 250) 250).2).map draw ∧
      (canPlayCurrentFrame (restartCheck (acquireFrame (draw samplePlayer)
        (some flatFrame)) flatFrame 250) 250).2.currentFrame = some flatFrame ∧
      (canPlayCurrentFrame (restartCheck (acquireFrame (draw samplePlayer)
        (some flatFrame)) flatFrame 250) 250).2.playbackStarted = 250 ∧
      (canPlayCurrentFrame (restartCheck (acquireFrame (draw samplePlayer)
        (some flatFrame)) flatFrame 250) 250).2.firstFrameTimestamp = flatFrame.dTimestamp ∧
      (∀ t, (250 : Int) ≤ t →
        t - (canPlayCurrentFrame (restartCheck (acquireFrame (draw samplePlayer)
            (some flatFrame)) flatFrame 250) 250).2.playbackStarted
          ≥ flatFrame.dTimestamp
            - (canPlayCurrentFrame (restartCheck (acquireFrame (draw samplePlayer)
                (some flatFrame)) flatFrame 250) 250).2.firstFrameTimestamp) :=
  loopBody_paced sampleExternals 4 sampleCam [(none, 100)] (some flatFrame) 250
    (draw samplePlayer)
    (canPlayCurrentFrame (restartCheck (acquireFrame (draw samplePlayer)
      (some flatFrame)) flatFrame 250) 250).2
    flatFrame rfl rfl (by decide)

end Player
